import Mathlib

/-!
A shallow embedding of the DWARF expression decoder and evaluator of
`src/src/op.rs`: the operation decoder `Operation.parse` (with the branch
helper `compute_pc`) and the resumable stack-machine `Evaluation` with its
entry points `evaluate` and the `resume_with_*` family.

Modelling conventions:
 * A `Reader` cursor is modelled as the list of bytes remaining; a cursor
   `pc` positioned inside a `bytecode` base is a suffix of that base, and
   `offset_from` is the difference of lengths.  The Reader abstraction is
   external to `src/` (spec section 6), so its reads are modelled from the
   spec: little-endian fixed-width reads, LEB128, split.
 * The external typed `Value` module (spec sections 2 and 4.2) is not part
   of `src/`; only its `Generic` variant is modelled here, from the spec:
   generic values are unsigned integers of address width, arithmetic is
   performed on 64-bit values and truncated with `addr_mask` (the comment
   on the `Evaluation` struct in the source, and spec section 4.2.5).
 * Rust `u64`/`usize` arithmetic is `Nat` arithmetic with explicit
   `% 2 ^ 64` where wrapping matters; `i64`/`i16` values are `Int`.
 * Evaluation entry points can panic on API misuse; an entry point result
   is `ok`/`err` (carrying the evaluator, whose mutations persist exactly
   as in the Rust, where the methods take `&mut self`) or `panicked`.
 * The main loop of `evaluate_internal` may diverge (e.g. a skip to
   itself with no iteration cap), so it takes a fuel argument; `none`
   means the loop was not finished within `fuel` iterations.  Fuel is
   consumed only by loop iterations, never by the end-of-expression exit.
-/

namespace Gimli

/-- DWARF offset format (external `parser::Format`). -/
inductive Format where
  | Dwarf32
  | Dwarf64
  deriving DecidableEq, Repr

/-- Errors surfaced by the core (the used subset of the external
`parser::Error`, spec section 7). -/
inductive Error where
  | UnexpectedEof
  | InvalidExpression (opcode : Nat)
  | BadBranchTarget (target : Nat)
  | NotEnoughStackItems
  | InvalidPushObjectAddress
  | TooManyIterations
  | InvalidPiece
  | InvalidExpressionTerminator (offset : Nat)
  | DivisionByZero
  | UnsupportedRegister (register : Nat)
  deriving DecidableEq, Repr

/-- Modelled from the spec: the external `ValueType`.  Only the generic
type (an unsigned integer of the target address width) is modelled. -/
inductive ValueType where
  | Generic
  deriving DecidableEq, Repr

/-- Modelled from the spec: the external `Value` datum.  Only the
`Generic` variant is modelled; the typed variants live in `value.rs`,
which is not part of `src/`. -/
inductive Value where
  | Generic (value : Nat)
  deriving DecidableEq, Repr

/-- Modelled from the spec: interpret a generic value of width
`addr_mask` as a signed integer (two's complement). -/
def signExtend (v mask : Nat) : Int :=
  let v := v &&& mask
  if 2 * v > mask then (v : Int) - ((mask : Int) + 1) else (v : Int)

/-- Modelled from the spec (section 4.2.5): convert a `Value` to a `u64`
address, truncating to address width with `addr_mask`. -/
def Value.to_u64 (v : Value) (addr_mask : Nat) : Except Error Nat :=
  match v with
  | .Generic value => .ok (value &&& addr_mask)

/-- Modelled from the spec: construct a `Value` of the given type from a
`u64`. -/
def Value.from_u64 (value_type : ValueType) (value : Nat) : Except Error Value :=
  match value_type with
  | .Generic => .ok (.Generic value)

/-- Modelled from the spec: the type tag of a `Value`. -/
def Value.value_type : Value → ValueType
  | .Generic _ => .Generic

/-- Modelled from the spec: absolute value (generic values are
sign-interpreted at address width). -/
def Value.abs (v : Value) (addr_mask : Nat) : Except Error Value :=
  match v with
  | .Generic a => .ok (.Generic ((signExtend a addr_mask).natAbs &&& addr_mask))

/-- Modelled from the spec: bitwise and. -/
def Value.and (lhs rhs : Value) (addr_mask : Nat) : Except Error Value :=
  match lhs, rhs with
  | .Generic a, .Generic b => .ok (.Generic ((a &&& b) &&& addr_mask))

/-- Modelled from the spec: signed division, failing on a zero divisor. -/
def Value.div (lhs rhs : Value) (addr_mask : Nat) : Except Error Value :=
  match lhs, rhs with
  | .Generic a, .Generic b =>
    if b &&& addr_mask = 0 then .error .DivisionByZero
    else
      .ok (.Generic
        (((Int.tdiv (signExtend a addr_mask) (signExtend b addr_mask)) % (2 ^ 64 : Int)).toNat
          &&& addr_mask))

/-- Modelled from the spec: wrapping subtraction. -/
def Value.sub (lhs rhs : Value) (addr_mask : Nat) : Except Error Value :=
  match lhs, rhs with
  | .Generic a, .Generic b =>
    .ok (.Generic (((a % 2 ^ 64 + (2 ^ 64 - b % 2 ^ 64)) % 2 ^ 64) &&& addr_mask))

/-- Modelled from the spec: unsigned remainder, failing on a zero divisor. -/
def Value.rem (lhs rhs : Value) (addr_mask : Nat) : Except Error Value :=
  match lhs, rhs with
  | .Generic a, .Generic b =>
    if b &&& addr_mask = 0 then .error .DivisionByZero
    else .ok (.Generic (((a &&& addr_mask) % (b &&& addr_mask)) &&& addr_mask))

/-- Modelled from the spec: wrapping multiplication. -/
def Value.mul (lhs rhs : Value) (addr_mask : Nat) : Except Error Value :=
  match lhs, rhs with
  | .Generic a, .Generic b => .ok (.Generic (((a * b) % 2 ^ 64) &&& addr_mask))

/-- Modelled from the spec: two's-complement negation. -/
def Value.neg (v : Value) (addr_mask : Nat) : Except Error Value :=
  match v with
  | .Generic a => .ok (.Generic (((2 ^ 64 - a % 2 ^ 64) % 2 ^ 64) &&& addr_mask))

/-- Modelled from the spec: bitwise not (complement within the mask). -/
def Value.not (v : Value) (addr_mask : Nat) : Except Error Value :=
  match v with
  | .Generic a => .ok (.Generic ((a &&& addr_mask) ^^^ addr_mask))

/-- Modelled from the spec: bitwise or. -/
def Value.or (lhs rhs : Value) (addr_mask : Nat) : Except Error Value :=
  match lhs, rhs with
  | .Generic a, .Generic b => .ok (.Generic ((a ||| b) &&& addr_mask))

/-- Modelled from the spec: wrapping addition. -/
def Value.add (lhs rhs : Value) (addr_mask : Nat) : Except Error Value :=
  match lhs, rhs with
  | .Generic a, .Generic b => .ok (.Generic (((a + b) % 2 ^ 64) &&& addr_mask))

/-- Modelled from the spec: logical left shift (shift counts of 64 or
more give 0). -/
def Value.shl (lhs rhs : Value) (addr_mask : Nat) : Except Error Value :=
  match lhs, rhs with
  | .Generic a, .Generic b =>
    if 64 ≤ b then .ok (.Generic 0)
    else .ok (.Generic (((a <<< b) % 2 ^ 64) &&& addr_mask))

/-- Modelled from the spec: logical right shift at address width. -/
def Value.shr (lhs rhs : Value) (addr_mask : Nat) : Except Error Value :=
  match lhs, rhs with
  | .Generic a, .Generic b =>
    if 64 ≤ b then .ok (.Generic 0)
    else .ok (.Generic (((a &&& addr_mask) >>> b) &&& addr_mask))

/-- Modelled from the spec: arithmetic right shift at address width. -/
def Value.shra (lhs rhs : Value) (addr_mask : Nat) : Except Error Value :=
  match lhs, rhs with
  | .Generic a, .Generic b =>
    let s := signExtend a addr_mask
    if 64 ≤ b then .ok (.Generic (if s < 0 then addr_mask else 0))
    else .ok (.Generic (((Int.fdiv s (2 ^ b)) % (2 ^ 64 : Int)).toNat &&& addr_mask))

/-- Modelled from the spec: bitwise xor. -/
def Value.xor (lhs rhs : Value) (addr_mask : Nat) : Except Error Value :=
  match lhs, rhs with
  | .Generic a, .Generic b => .ok (.Generic ((a ^^^ b) &&& addr_mask))

/-- Modelled from the spec: equality comparison, producing 1 or 0. -/
def Value.eq (lhs rhs : Value) (addr_mask : Nat) : Except Error Value :=
  match lhs, rhs with
  | .Generic a, .Generic b =>
    .ok (.Generic (if a &&& addr_mask = b &&& addr_mask then 1 else 0))

/-- Modelled from the spec: signed greater-or-equal comparison. -/
def Value.ge (lhs rhs : Value) (addr_mask : Nat) : Except Error Value :=
  match lhs, rhs with
  | .Generic a, .Generic b =>
    .ok (.Generic (if signExtend b addr_mask ≤ signExtend a addr_mask then 1 else 0))

/-- Modelled from the spec: signed greater-than comparison. -/
def Value.gt (lhs rhs : Value) (addr_mask : Nat) : Except Error Value :=
  match lhs, rhs with
  | .Generic a, .Generic b =>
    .ok (.Generic (if signExtend b addr_mask < signExtend a addr_mask then 1 else 0))

/-- Modelled from the spec: signed less-or-equal comparison. -/
def Value.le (lhs rhs : Value) (addr_mask : Nat) : Except Error Value :=
  match lhs, rhs with
  | .Generic a, .Generic b =>
    .ok (.Generic (if signExtend a addr_mask ≤ signExtend b addr_mask then 1 else 0))

/-- Modelled from the spec: signed less-than comparison. -/
def Value.lt (lhs rhs : Value) (addr_mask : Nat) : Except Error Value :=
  match lhs, rhs with
  | .Generic a, .Generic b =>
    .ok (.Generic (if signExtend a addr_mask < signExtend b addr_mask then 1 else 0))

/-- Modelled from the spec: disequality comparison. -/
def Value.ne (lhs rhs : Value) (addr_mask : Nat) : Except Error Value :=
  match lhs, rhs with
  | .Generic a, .Generic b =>
    .ok (.Generic (if a &&& addr_mask = b &&& addr_mask then 0 else 1))

/-- Modelled from the spec: conversion to another type (only the generic
type is modelled; conversion to generic truncates to address width). -/
def Value.convert (v : Value) (value_type : ValueType) (addr_mask : Nat) :
    Except Error Value :=
  match v, value_type with
  | .Generic a, .Generic => .ok (.Generic (a &&& addr_mask))

/-- Modelled from the spec: bit reinterpretation as another type (only
the generic type is modelled). -/
def Value.reinterpret (v : Value) (value_type : ValueType) (addr_mask : Nat) :
    Except Error Value :=
  match v, value_type with
  | .Generic a, .Generic => .ok (.Generic (a &&& addr_mask))

/- Reader operations, modelled from the spec (section 6): a cursor is the
list of bytes that remain. -/

/-- Modelled from the spec: read one byte, advancing the cursor. -/
def read_u8 : List Nat → Except Error (Nat × List Nat)
  | [] => .error .UnexpectedEof
  | b :: rest => .ok (b, rest)

/-- Modelled from the spec: read `n` bytes little-endian. -/
def readLE : Nat → List Nat → Except Error (Nat × List Nat)
  | 0, bytes => .ok (0, bytes)
  | _ + 1, [] => .error .UnexpectedEof
  | n + 1, b :: rest =>
    match readLE n rest with
    | .error e => .error e
    | .ok (v, rem) => .ok (b + 256 * v, rem)

/-- Modelled from the spec: interpret an unsigned `bits`-wide value as a
two's-complement signed integer. -/
def toSigned (v : Nat) (bits : Nat) : Int :=
  if v < 2 ^ (bits - 1) then (v : Int) else (v : Int) - 2 ^ bits

/-- Modelled from the spec: read a little-endian `u16`. -/
def read_u16 (bytes : List Nat) : Except Error (Nat × List Nat) :=
  readLE 2 bytes

/-- Modelled from the spec: read a little-endian `u32`. -/
def read_u32 (bytes : List Nat) : Except Error (Nat × List Nat) :=
  readLE 4 bytes

/-- Modelled from the spec: read a little-endian `u64`. -/
def read_u64 (bytes : List Nat) : Except Error (Nat × List Nat) :=
  readLE 8 bytes

/-- Modelled from the spec: read a signed byte. -/
def read_i8 (bytes : List Nat) : Except Error (Int × List Nat) := do
  let (v, rest) ← read_u8 bytes
  return (toSigned v 8, rest)

/-- Modelled from the spec: read a little-endian `i16`. -/
def read_i16 (bytes : List Nat) : Except Error (Int × List Nat) := do
  let (v, rest) ← read_u16 bytes
  return (toSigned v 16, rest)

/-- Modelled from the spec: read a little-endian `i32`. -/
def read_i32 (bytes : List Nat) : Except Error (Int × List Nat) := do
  let (v, rest) ← read_u32 bytes
  return (toSigned v 32, rest)

/-- Modelled from the spec: read a little-endian `i64`. -/
def read_i64 (bytes : List Nat) : Except Error (Int × List Nat) := do
  let (v, rest) ← read_u64 bytes
  return (toSigned v 64, rest)

/-- Modelled from the spec: read an address of `address_size` bytes,
little-endian. -/
def read_address (address_size : Nat) (bytes : List Nat) :
    Except Error (Nat × List Nat) :=
  readLE address_size bytes

/-- Modelled from the spec: read a 4-byte offset in Dwarf32 and an
8-byte offset in Dwarf64. -/
def read_offset (format : Format) (bytes : List Nat) :
    Except Error (Nat × List Nat) :=
  match format with
  | .Dwarf32 => read_u32 bytes
  | .Dwarf64 => read_u64 bytes

/-- Modelled from the spec: unsigned LEB128, accumulating 7-bit groups. -/
def read_uleb128Loop : List Nat → Nat → Nat → Except Error (Nat × List Nat)
  | [], _, _ => .error .UnexpectedEof
  | b :: rest, shift, result =>
    let result := result + (b % 128) * 2 ^ shift
    if b % 256 < 128 then .ok (result, rest)
    else read_uleb128Loop rest (shift + 7) result

/-- Modelled from the spec: read an unsigned LEB128 integer. -/
def read_uleb128 (bytes : List Nat) : Except Error (Nat × List Nat) :=
  read_uleb128Loop bytes 0 0

/-- Modelled from the spec: signed LEB128, with sign extension from the
final group. -/
def read_sleb128Loop : List Nat → Nat → Nat → Except Error (Int × List Nat)
  | [], _, _ => .error .UnexpectedEof
  | b :: rest, shift, result =>
    let result := result + (b % 128) * 2 ^ shift
    if b % 256 < 128 then
      if 64 ≤ b % 128 then .ok ((result : Int) - 2 ^ (shift + 7), rest)
      else .ok ((result : Int), rest)
    else read_sleb128Loop rest (shift + 7) result

/-- Modelled from the spec: read a signed LEB128 integer. -/
def read_sleb128 (bytes : List Nat) : Except Error (Int × List Nat) :=
  read_sleb128Loop bytes 0 0

/-- Modelled from the spec: detach a prefix of length `len`, advancing
past it. -/
def split (len : Nat) (bytes : List Nat) :
    Except Error (List Nat × List Nat) :=
  if len ≤ bytes.length then .ok (bytes.take len, bytes.drop len)
  else .error .UnexpectedEof

/-- Modelled from the spec: the external `Register::from_u64`, which
rejects register numbers that do not fit in a `u16`. -/
def Register.from_u64 (value : Nat) : Except Error Nat :=
  if value ≤ 0xffff then .ok value else .error (.UnsupportedRegister value)

/-- Modelled from the spec: parse a byte slice as a typed constant; only
the generic type is modelled, as a little-endian `u64`. -/
def Value.parse (value_type : ValueType) (bytes : List Nat) :
    Except Error Value :=
  match value_type with
  | .Generic =>
    match read_u64 bytes with
    | .error e => .error e
    | .ok (v, _) => .ok (.Generic v)

/-- A reference to a DIE: CU-relative or section-relative. -/
inductive DieReference where
  | UnitRef (offset : Nat)
  | DebugInfoRef (offset : Nat)
  deriving DecidableEq, Repr

/-- A single location of a piece of the result of a DWARF expression. -/
inductive Location where
  | Empty
  | Register (register : Nat)
  | Address (address : Nat)
  | Value (value : Value)
  | Bytes (value : List Nat)
  | ImplicitPointer (value : Nat) (byte_offset : Int)
  deriving DecidableEq, Repr

/-- The description of a single piece of the result of a DWARF
expression. -/
structure Piece where
  size_in_bits : Option Nat
  bit_offset : Option Nat
  location : Location
  deriving DecidableEq, Repr

/-- A single decoded DWARF expression operation (`Operation` in the
source; byte-slice operands carry the remaining-bytes model of their
cursor). -/
inductive Operation where
  | Deref (base_type : Nat) (size : Nat) (space : Bool)
  | Drop
  | Pick (index : Nat)
  | Swap
  | Rot
  | Abs
  | And
  | Div
  | Minus
  | Mod
  | Mul
  | Neg
  | Not
  | Or
  | Plus
  | PlusConstant (value : Nat)
  | Shl
  | Shr
  | Shra
  | Xor
  | Bra (target : List Nat)
  | Eq
  | Ge
  | Gt
  | Le
  | Lt
  | Ne
  | Skip (target : List Nat)
  | Literal (value : Nat)
  | Register (register : Nat)
  | RegisterOffset (register : Nat) (offset : Int) (base_type : Nat)
  | FrameOffset (offset : Int)
  | Nop
  | PushObjectAddress
  | Call (offset : DieReference)
  | TLS
  | CallFrameCFA
  | Piece (size_in_bits : Nat) (bit_offset : Option Nat)
  | ImplicitValue (data : List Nat)
  | StackValue
  | ImplicitPointer (value : Nat) (byte_offset : Int)
  | EntryValue (expression : List Nat)
  | ParameterRef (offset : Nat)
  | Address (address : Nat)
  | TypedLiteral (base_type : Nat) (value : List Nat)
  | Convert (base_type : Nat)
  | Reinterpret (base_type : Nat)
  deriving DecidableEq, Repr

/-- Branch-offset helper (`compute_pc` in the source): the current
offset of `pc` within `bytecode` plus the signed 16-bit `offset`, with
`usize` (64-bit) wrapping.  A target one past the end is legal; anything
beyond fails with `BadBranchTarget`. -/
def compute_pc (pc bytecode : List Nat) (offset : Int) :
    Except Error (List Nat) :=
  let pc_offset : Nat := bytecode.length - pc.length
  let new_pc_offset : Nat := (((pc_offset : Int) + offset) % (2 ^ 64 : Int)).toNat
  if bytecode.length < new_pc_offset then
    .error (.BadBranchTarget new_pc_offset)
  else
    .ok (bytecode.drop new_pc_offset)

/-- The generic base type sentinel (unit offset 0). -/
def generic_type : Nat := 0

/-- Parse a single DWARF expression operation (`Operation::parse` in the
source): read the opcode byte and its operands, returning the decoded
operation together with the advanced cursor. -/
def Operation.parse (bytes : List Nat) (bytecode : List Nat)
    (address_size : Nat) (format : Format) :
    Except Error (Operation × List Nat) := do
  let (opcode, bytes) ← read_u8 bytes
  if opcode = 0x03 then
    let (address, bytes) ← read_address address_size bytes
    return (.Address address, bytes)
  else if opcode = 0x06 then
    return (.Deref generic_type address_size false, bytes)
  else if opcode = 0x08 then
    let (value, bytes) ← read_u8 bytes
    return (.Literal value, bytes)
  else if opcode = 0x09 then
    let (value, bytes) ← read_i8 bytes
    return (.Literal ((value % (2 ^ 64 : Int)).toNat), bytes)
  else if opcode = 0x0a then
    let (value, bytes) ← read_u16 bytes
    return (.Literal value, bytes)
  else if opcode = 0x0b then
    let (value, bytes) ← read_i16 bytes
    return (.Literal ((value % (2 ^ 64 : Int)).toNat), bytes)
  else if opcode = 0x0c then
    let (value, bytes) ← read_u32 bytes
    return (.Literal value, bytes)
  else if opcode = 0x0d then
    let (value, bytes) ← read_i32 bytes
    return (.Literal ((value % (2 ^ 64 : Int)).toNat), bytes)
  else if opcode = 0x0e then
    let (value, bytes) ← read_u64 bytes
    return (.Literal value, bytes)
  else if opcode = 0x0f then
    let (value, bytes) ← read_i64 bytes
    return (.Literal ((value % (2 ^ 64 : Int)).toNat), bytes)
  else if opcode = 0x10 then
    let (value, bytes) ← read_uleb128 bytes
    return (.Literal value, bytes)
  else if opcode = 0x11 then
    let (value, bytes) ← read_sleb128 bytes
    return (.Literal ((value % (2 ^ 64 : Int)).toNat), bytes)
  else if opcode = 0x12 then
    return (.Pick 0, bytes)
  else if opcode = 0x13 then
    return (.Drop, bytes)
  else if opcode = 0x14 then
    return (.Pick 1, bytes)
  else if opcode = 0x15 then
    let (value, bytes) ← read_u8 bytes
    return (.Pick value, bytes)
  else if opcode = 0x16 then
    return (.Swap, bytes)
  else if opcode = 0x17 then
    return (.Rot, bytes)
  else if opcode = 0x18 then
    return (.Deref generic_type address_size true, bytes)
  else if opcode = 0x19 then
    return (.Abs, bytes)
  else if opcode = 0x1a then
    return (.And, bytes)
  else if opcode = 0x1b then
    return (.Div, bytes)
  else if opcode = 0x1c then
    return (.Minus, bytes)
  else if opcode = 0x1d then
    return (.Mod, bytes)
  else if opcode = 0x1e then
    return (.Mul, bytes)
  else if opcode = 0x1f then
    return (.Neg, bytes)
  else if opcode = 0x20 then
    return (.Not, bytes)
  else if opcode = 0x21 then
    return (.Or, bytes)
  else if opcode = 0x22 then
    return (.Plus, bytes)
  else if opcode = 0x23 then
    let (value, bytes) ← read_uleb128 bytes
    return (.PlusConstant value, bytes)
  else if opcode = 0x24 then
    return (.Shl, bytes)
  else if opcode = 0x25 then
    return (.Shr, bytes)
  else if opcode = 0x26 then
    return (.Shra, bytes)
  else if opcode = 0x27 then
    return (.Xor, bytes)
  else if opcode = 0x28 then
    let (value, bytes) ← read_i16 bytes
    let target ← compute_pc bytes bytecode value
    return (.Bra target, bytes)
  else if opcode = 0x29 then
    return (.Eq, bytes)
  else if opcode = 0x2a then
    return (.Ge, bytes)
  else if opcode = 0x2b then
    return (.Gt, bytes)
  else if opcode = 0x2c then
    return (.Le, bytes)
  else if opcode = 0x2d then
    return (.Lt, bytes)
  else if opcode = 0x2e then
    return (.Ne, bytes)
  else if opcode = 0x2f then
    let (value, bytes) ← read_i16 bytes
    let target ← compute_pc bytes bytecode value
    return (.Skip target, bytes)
  else if 0x30 ≤ opcode ∧ opcode ≤ 0x4f then
    return (.Literal (opcode - 0x30), bytes)
  else if 0x50 ≤ opcode ∧ opcode ≤ 0x6f then
    return (.Register (opcode - 0x50), bytes)
  else if 0x70 ≤ opcode ∧ opcode ≤ 0x8f then
    let (value, bytes) ← read_sleb128 bytes
    return (.RegisterOffset (opcode - 0x70) value generic_type, bytes)
  else if opcode = 0x90 then
    let (value, bytes) ← read_uleb128 bytes
    let register ← Register.from_u64 value
    return (.Register register, bytes)
  else if opcode = 0x91 then
    let (value, bytes) ← read_sleb128 bytes
    return (.FrameOffset value, bytes)
  else if opcode = 0x92 then
    let (value, bytes) ← read_uleb128 bytes
    let register ← Register.from_u64 value
    let (offset, bytes) ← read_sleb128 bytes
    return (.RegisterOffset register offset generic_type, bytes)
  else if opcode = 0x93 then
    let (size, bytes) ← read_uleb128 bytes
    return (.Piece (8 * size) none, bytes)
  else if opcode = 0x94 then
    let (size, bytes) ← read_u8 bytes
    return (.Deref generic_type size false, bytes)
  else if opcode = 0x95 then
    let (size, bytes) ← read_u8 bytes
    return (.Deref generic_type size true, bytes)
  else if opcode = 0x96 then
    return (.Nop, bytes)
  else if opcode = 0x97 then
    return (.PushObjectAddress, bytes)
  else if opcode = 0x98 then
    let (value, bytes) ← read_u16 bytes
    return (.Call (.UnitRef value), bytes)
  else if opcode = 0x99 then
    let (value, bytes) ← read_u32 bytes
    return (.Call (.UnitRef value), bytes)
  else if opcode = 0x9a then
    let (value, bytes) ← read_offset format bytes
    return (.Call (.DebugInfoRef value), bytes)
  else if opcode = 0x9b ∨ opcode = 0xe0 then
    return (.TLS, bytes)
  else if opcode = 0x9c then
    return (.CallFrameCFA, bytes)
  else if opcode = 0x9d then
    let (size, bytes) ← read_uleb128 bytes
    let (offset, bytes) ← read_uleb128 bytes
    return (.Piece size (some offset), bytes)
  else if opcode = 0x9e then
    let (len, bytes) ← read_uleb128 bytes
    let (data, bytes) ← split len bytes
    return (.ImplicitValue data, bytes)
  else if opcode = 0x9f then
    return (.StackValue, bytes)
  else if opcode = 0xa0 ∨ opcode = 0xf2 then
    let (value, bytes) ← read_offset format bytes
    let (byte_offset, bytes) ← read_sleb128 bytes
    return (.ImplicitPointer value byte_offset, bytes)
  else if opcode = 0xa3 ∨ opcode = 0xf3 then
    let (len, bytes) ← read_uleb128 bytes
    let (expression, bytes) ← split len bytes
    return (.EntryValue expression, bytes)
  else if opcode = 0xfa then
    let (value, bytes) ← read_u32 bytes
    return (.ParameterRef value, bytes)
  else if opcode = 0xa4 ∨ opcode = 0xf4 then
    let (base_type, bytes) ← read_uleb128 bytes
    let (len, bytes) ← read_u8 bytes
    let (value, bytes) ← split len bytes
    return (.TypedLiteral base_type value, bytes)
  else if opcode = 0xa5 ∨ opcode = 0xf5 then
    let (value, bytes) ← read_uleb128 bytes
    let register ← Register.from_u64 value
    let (base_type, bytes) ← read_uleb128 bytes
    return (.RegisterOffset register 0 base_type, bytes)
  else if opcode = 0xa6 ∨ opcode = 0xf6 then
    let (size, bytes) ← read_u8 bytes
    let (base_type, bytes) ← read_uleb128 bytes
    return (.Deref base_type size false, bytes)
  else if opcode = 0xa7 then
    let (size, bytes) ← read_u8 bytes
    let (base_type, bytes) ← read_uleb128 bytes
    return (.Deref base_type size true, bytes)
  else if opcode = 0xa8 ∨ opcode = 0xf7 then
    let (base_type, bytes) ← read_uleb128 bytes
    return (.Convert base_type, bytes)
  else if opcode = 0xa9 ∨ opcode = 0xf9 then
    let (base_type, bytes) ← read_uleb128 bytes
    return (.Reinterpret base_type, bytes)
  else
    throw (.InvalidExpression opcode)

/-- What the evaluator is waiting for (`EvaluationWaiting` in the
source). -/
inductive EvaluationWaiting where
  | Memory
  | Register (offset : Int)
  | FrameBase (offset : Int)
  | Tls
  | Cfa
  | AtLocation
  | EntryValue
  | ParameterRef
  | RelocatedAddress
  | TypedLiteral (value : List Nat)
  | Convert
  | Reinterpret
  deriving DecidableEq, Repr

/-- The internal evaluator lifecycle (`EvaluationState` in the source). -/
inductive EvaluationState where
  | Start (initial_value : Option Nat)
  | Ready
  | Error (e : Error)
  | Complete
  | Waiting (w : EvaluationWaiting)
  deriving DecidableEq, Repr

/-- The public result of driving an `Evaluation` (`EvaluationResult` in
the source).  `RequiresEntryValue` carries the sub-expression bytes. -/
inductive EvaluationResult where
  | Complete
  | RequiresMemory (address : Nat) (size : Nat) (space : Option Nat) (base_type : Nat)
  | RequiresRegister (register : Nat) (base_type : Nat)
  | RequiresFrameBase
  | RequiresTls (value : Nat)
  | RequiresCallFrameCfa
  | RequiresAtLocation (die : DieReference)
  | RequiresEntryValue (expression : List Nat)
  | RequiresParameterRef (offset : Nat)
  | RequiresRelocatedAddress (address : Nat)
  | RequiresBaseType (base_type : Nat)
  deriving DecidableEq, Repr

/-- The outcome of executing one operation (`OperationEvaluationResult`
in the source). -/
inductive OperationEvaluationResult where
  | Piece
  | Incomplete
  | Complete (location : Location)
  | Waiting (w : EvaluationWaiting) (r : EvaluationResult)
  deriving DecidableEq, Repr

/-- The DWARF expression evaluator state (`Evaluation` in the source).
The value stack and the result vector keep the `Vec` order: index 0 is
the bottom, pushes append at the end. -/
structure Evaluation where
  bytecode : List Nat
  address_size : Nat
  format : Format
  object_address : Option Nat
  max_iterations : Option Nat
  iteration : Nat
  state : EvaluationState
  addr_mask : Nat
  stack : List Value
  pc : List Nat
  expression_stack : List (List Nat × List Nat)
  result : List Piece
  deriving DecidableEq, Repr

/-- Create a new evaluator (`Evaluation::new`). -/
def Evaluation.new (bytecode : List Nat) (address_size : Nat)
    (format : Format) : Evaluation :=
  { bytecode := bytecode
    address_size := address_size
    format := format
    object_address := none
    max_iterations := none
    iteration := 0
    state := .Start none
    addr_mask := if address_size = 8 then 2 ^ 64 - 1
                 else 2 ^ (8 * address_size) - 1
    stack := []
    pc := bytecode
    expression_stack := []
    result := [] }

/-- Set the initial stack value (`Evaluation::set_initial_value`); `none`
models the panic when called twice or after evaluation began. -/
def Evaluation.set_initial_value (ev : Evaluation) (value : Nat) :
    Option Evaluation :=
  match ev.state with
  | .Start none => some { ev with state := .Start (some value) }
  | _ => none

/-- Set the object address (`Evaluation::set_object_address`). -/
def Evaluation.set_object_address (ev : Evaluation) (value : Nat) :
    Evaluation :=
  { ev with object_address := some value }

/-- Set the iteration cap (`Evaluation::set_max_iterations`). -/
def Evaluation.set_max_iterations (ev : Evaluation) (value : Nat) :
    Evaluation :=
  { ev with max_iterations := some value }

/-- Pop the value stack (`Evaluation::pop`): the top is the last `Vec`
element; an empty stack fails with `NotEnoughStackItems`. -/
def Evaluation.pop (ev : Evaluation) : (Except Error Value) × Evaluation :=
  match ev.stack.getLast? with
  | some value => (.ok value, { ev with stack := ev.stack.dropLast })
  | none => (.error .NotEnoughStackItems, ev)

/-- Push onto the value stack (`Evaluation::push`). -/
def Evaluation.push (ev : Evaluation) (value : Value) : Evaluation :=
  { ev with stack := ev.stack ++ [value] }

/-- Sequencing for state-threading fallible steps: the `?` operator on a
step that already carries the mutated evaluator. -/
def andThen {α β : Type} (x : (Except Error α) × Evaluation)
    (f : α → Evaluation → (Except Error β) × Evaluation) :
    (Except Error β) × Evaluation :=
  match x with
  | (.error e, ev) => (.error e, ev)
  | (.ok a, ev) => f a ev

/-- Sequencing for the `?` operator on a pure `Except` step. -/
def bindVal {α β : Type} (x : Except Error α) (ev : Evaluation)
    (f : α → Evaluation → (Except Error β) × Evaluation) :
    (Except Error β) × Evaluation :=
  match x with
  | .error e => (.error e, ev)
  | .ok a => f a ev

/-- Decode and execute one operation
(`Evaluation::evaluate_one_operation`).  The parsed cursor replaces `pc`
before the operation is executed, as in the source where `parse` takes
`&mut self.pc`. -/
def Evaluation.evaluate_one_operation (ev : Evaluation) :
    (Except Error OperationEvaluationResult) × Evaluation :=
  match Operation.parse ev.pc ev.bytecode ev.address_size ev.format with
  | .error e => (.error e, ev)
  | .ok (operation, pc') =>
    let ev := { ev with pc := pc' }
    match operation with
    | .Deref base_type size space =>
      andThen ev.pop fun entry ev =>
      bindVal (entry.to_u64 ev.addr_mask) ev fun addr ev =>
      if space then
        andThen ev.pop fun entry2 ev =>
        bindVal (entry2.to_u64 ev.addr_mask) ev fun value ev =>
        (.ok (.Waiting .Memory (.RequiresMemory addr size (some value) base_type)), ev)
      else
        (.ok (.Waiting .Memory (.RequiresMemory addr size none base_type)), ev)
    | .Drop =>
      andThen ev.pop fun _ ev => (.ok .Incomplete, ev)
    | .Pick index =>
      let len := ev.stack.length
      if len ≤ index then (.error .NotEnoughStackItems, ev)
      else
        let value := ev.stack.getD (len - index - 1) (.Generic 0)
        (.ok .Incomplete, ev.push value)
    | .Swap =>
      andThen ev.pop fun top ev =>
      andThen ev.pop fun next ev =>
      (.ok .Incomplete, (ev.push top).push next)
    | .Rot =>
      andThen ev.pop fun one ev =>
      andThen ev.pop fun two ev =>
      andThen ev.pop fun three ev =>
      (.ok .Incomplete, ((ev.push one).push three).push two)
    | .Abs =>
      andThen ev.pop fun value ev =>
      bindVal (value.abs ev.addr_mask) ev fun result ev =>
      (.ok .Incomplete, ev.push result)
    | .And =>
      andThen ev.pop fun rhs ev =>
      andThen ev.pop fun lhs ev =>
      bindVal (lhs.and rhs ev.addr_mask) ev fun result ev =>
      (.ok .Incomplete, ev.push result)
    | .Div =>
      andThen ev.pop fun rhs ev =>
      andThen ev.pop fun lhs ev =>
      bindVal (lhs.div rhs ev.addr_mask) ev fun result ev =>
      (.ok .Incomplete, ev.push result)
    | .Minus =>
      andThen ev.pop fun rhs ev =>
      andThen ev.pop fun lhs ev =>
      bindVal (lhs.sub rhs ev.addr_mask) ev fun result ev =>
      (.ok .Incomplete, ev.push result)
    | .Mod =>
      andThen ev.pop fun rhs ev =>
      andThen ev.pop fun lhs ev =>
      bindVal (lhs.rem rhs ev.addr_mask) ev fun result ev =>
      (.ok .Incomplete, ev.push result)
    | .Mul =>
      andThen ev.pop fun rhs ev =>
      andThen ev.pop fun lhs ev =>
      bindVal (lhs.mul rhs ev.addr_mask) ev fun result ev =>
      (.ok .Incomplete, ev.push result)
    | .Neg =>
      andThen ev.pop fun v ev =>
      bindVal (v.neg ev.addr_mask) ev fun result ev =>
      (.ok .Incomplete, ev.push result)
    | .Not =>
      andThen ev.pop fun value ev =>
      bindVal (value.not ev.addr_mask) ev fun result ev =>
      (.ok .Incomplete, ev.push result)
    | .Or =>
      andThen ev.pop fun rhs ev =>
      andThen ev.pop fun lhs ev =>
      bindVal (lhs.or rhs ev.addr_mask) ev fun result ev =>
      (.ok .Incomplete, ev.push result)
    | .Plus =>
      andThen ev.pop fun rhs ev =>
      andThen ev.pop fun lhs ev =>
      bindVal (lhs.add rhs ev.addr_mask) ev fun result ev =>
      (.ok .Incomplete, ev.push result)
    | .PlusConstant value =>
      andThen ev.pop fun lhs ev =>
      bindVal (Value.from_u64 lhs.value_type value) ev fun rhs ev =>
      bindVal (lhs.add rhs ev.addr_mask) ev fun result ev =>
      (.ok .Incomplete, ev.push result)
    | .Shl =>
      andThen ev.pop fun rhs ev =>
      andThen ev.pop fun lhs ev =>
      bindVal (lhs.shl rhs ev.addr_mask) ev fun result ev =>
      (.ok .Incomplete, ev.push result)
    | .Shr =>
      andThen ev.pop fun rhs ev =>
      andThen ev.pop fun lhs ev =>
      bindVal (lhs.shr rhs ev.addr_mask) ev fun result ev =>
      (.ok .Incomplete, ev.push result)
    | .Shra =>
      andThen ev.pop fun rhs ev =>
      andThen ev.pop fun lhs ev =>
      bindVal (lhs.shra rhs ev.addr_mask) ev fun result ev =>
      (.ok .Incomplete, ev.push result)
    | .Xor =>
      andThen ev.pop fun rhs ev =>
      andThen ev.pop fun lhs ev =>
      bindVal (lhs.xor rhs ev.addr_mask) ev fun result ev =>
      (.ok .Incomplete, ev.push result)
    | .Bra target =>
      andThen ev.pop fun entry ev =>
      bindVal (entry.to_u64 ev.addr_mask) ev fun v ev =>
      if v ≠ 0 then (.ok .Incomplete, { ev with pc := target })
      else (.ok .Incomplete, ev)
    | .Eq =>
      andThen ev.pop fun rhs ev =>
      andThen ev.pop fun lhs ev =>
      bindVal (lhs.eq rhs ev.addr_mask) ev fun result ev =>
      (.ok .Incomplete, ev.push result)
    | .Ge =>
      andThen ev.pop fun rhs ev =>
      andThen ev.pop fun lhs ev =>
      bindVal (lhs.ge rhs ev.addr_mask) ev fun result ev =>
      (.ok .Incomplete, ev.push result)
    | .Gt =>
      andThen ev.pop fun rhs ev =>
      andThen ev.pop fun lhs ev =>
      bindVal (lhs.gt rhs ev.addr_mask) ev fun result ev =>
      (.ok .Incomplete, ev.push result)
    | .Le =>
      andThen ev.pop fun rhs ev =>
      andThen ev.pop fun lhs ev =>
      bindVal (lhs.le rhs ev.addr_mask) ev fun result ev =>
      (.ok .Incomplete, ev.push result)
    | .Lt =>
      andThen ev.pop fun rhs ev =>
      andThen ev.pop fun lhs ev =>
      bindVal (lhs.lt rhs ev.addr_mask) ev fun result ev =>
      (.ok .Incomplete, ev.push result)
    | .Ne =>
      andThen ev.pop fun rhs ev =>
      andThen ev.pop fun lhs ev =>
      bindVal (lhs.ne rhs ev.addr_mask) ev fun result ev =>
      (.ok .Incomplete, ev.push result)
    | .Skip target =>
      (.ok .Incomplete, { ev with pc := target })
    | .Literal value =>
      (.ok .Incomplete, ev.push (.Generic value))
    | .RegisterOffset register offset base_type =>
      (.ok (.Waiting (.Register offset) (.RequiresRegister register base_type)), ev)
    | .FrameOffset offset =>
      (.ok (.Waiting (.FrameBase offset) .RequiresFrameBase), ev)
    | .Nop =>
      (.ok .Incomplete, ev)
    | .PushObjectAddress =>
      match ev.object_address with
      | some value => (.ok .Incomplete, ev.push (.Generic value))
      | none => (.error .InvalidPushObjectAddress, ev)
    | .Call offset =>
      (.ok (.Waiting .AtLocation (.RequiresAtLocation offset)), ev)
    | .TLS =>
      andThen ev.pop fun entry ev =>
      bindVal (entry.to_u64 ev.addr_mask) ev fun index ev =>
      (.ok (.Waiting .Tls (.RequiresTls index)), ev)
    | .CallFrameCFA =>
      (.ok (.Waiting .Cfa .RequiresCallFrameCfa), ev)
    | .Register register =>
      (.ok (.Complete (.Register register)), ev)
    | .ImplicitValue data =>
      (.ok (.Complete (.Bytes data)), ev)
    | .StackValue =>
      andThen ev.pop fun value ev =>
      (.ok (.Complete (.Value value)), ev)
    | .ImplicitPointer value byte_offset =>
      (.ok (.Complete (.ImplicitPointer value byte_offset)), ev)
    | .EntryValue expression =>
      (.ok (.Waiting .EntryValue (.RequiresEntryValue expression)), ev)
    | .ParameterRef offset =>
      (.ok (.Waiting .ParameterRef (.RequiresParameterRef offset)), ev)
    | .Address address =>
      (.ok (.Waiting .RelocatedAddress (.RequiresRelocatedAddress address)), ev)
    | .Piece size_in_bits bit_offset =>
      if ev.stack.isEmpty then
        (.ok .Piece,
          { ev with result := ev.result ++ [⟨some size_in_bits, bit_offset, .Empty⟩] })
      else
        andThen ev.pop fun entry ev =>
        bindVal (entry.to_u64 ev.addr_mask) ev fun address ev =>
        (.ok .Piece,
          { ev with result := ev.result ++ [⟨some size_in_bits, bit_offset, .Address address⟩] })
    | .TypedLiteral base_type value =>
      (.ok (.Waiting (.TypedLiteral value) (.RequiresBaseType base_type)), ev)
    | .Convert base_type =>
      (.ok (.Waiting .Convert (.RequiresBaseType base_type)), ev)
    | .Reinterpret base_type =>
      (.ok (.Waiting .Reinterpret (.RequiresBaseType base_type)), ev)

/-- The `while self.pc.is_empty()` loop of
`Evaluation::end_of_expression`, recursing on the expression call
stack. -/
def end_of_expressionAux :
    List (List Nat × List Nat) → List Nat → List Nat →
    Bool × List Nat × List Nat × List (List Nat × List Nat)
  | stack, pc, bytecode =>
    if pc.isEmpty then
      match stack with
      | [] => (true, pc, bytecode, [])
      | (newpc, newbytes) :: rest => end_of_expressionAux rest newpc newbytes
    else (false, pc, bytecode, stack)

/-- End-of-expression detection (`Evaluation::end_of_expression`): pop
saved (pc, bytecode) pairs while `pc` is empty; true end is an empty
`pc` with an empty call stack.  The restored cursors persist in the
returned evaluator, as the source method mutates `self`. -/
def Evaluation.end_of_expression (ev : Evaluation) : Bool × Evaluation :=
  match end_of_expressionAux ev.expression_stack ev.pc ev.bytecode with
  | (b, pc, bytecode, stack) =>
    (b, { ev with pc := pc, bytecode := bytecode, expression_stack := stack })

/-- The code after the main loop of `Evaluation::evaluate_internal`
(source lines 1707-1721): with no pieces, pop the stack top, mask it to
an address and emit a single unsized piece; then transition to
`Complete`. -/
def Evaluation.evaluate_final (ev : Evaluation) :
    (Except Error EvaluationResult) × Evaluation :=
  if ev.result.isEmpty then
    andThen ev.pop fun entry ev =>
    bindVal (entry.to_u64 ev.addr_mask) ev fun addr ev =>
    (.ok .Complete,
      { ev with result := ev.result ++ [⟨none, none, .Address addr⟩],
                state := .Complete })
  else
    (.ok .Complete, { ev with state := .Complete })

/-- The main loop of `Evaluation::evaluate_internal`, with fuel bounding
the number of loop iterations (`none` = fuel exhausted; the source loop
can diverge when no iteration cap is set). -/
def Evaluation.evaluate_internal :
    Nat → Evaluation → Option ((Except Error EvaluationResult) × Evaluation)
  | 0, ev =>
    match ev.end_of_expression with
    | (true, ev1) => some ev1.evaluate_final
    | (false, _) => none
  | fuel + 1, ev =>
    match ev.end_of_expression with
    | (true, ev1) => some ev1.evaluate_final
    | (false, ev1) =>
      let ev2 := { ev1 with iteration := ev1.iteration + 1 }
      let over : Bool := match ev2.max_iterations with
        | some max_iterations => decide (max_iterations < ev2.iteration)
        | none => false
      if over then some (.error .TooManyIterations, ev2)
      else
        match ev2.evaluate_one_operation with
        | (.error e, ev3) => some (.error e, ev3)
        | (.ok .Piece, ev3) => Evaluation.evaluate_internal fuel ev3
        | (.ok .Incomplete, ev3) =>
          match ev3.end_of_expression with
          | (isEnd, ev4) =>
            if isEnd && !ev4.result.isEmpty then
              some (.error .InvalidPiece, ev4)
            else Evaluation.evaluate_internal fuel ev4
        | (.ok (.Complete location), ev3) =>
          match ev3.end_of_expression with
          | (true, ev4) =>
            if ev4.result.isEmpty then
              Evaluation.evaluate_internal fuel
                { ev4 with result := ev4.result ++ [⟨none, none, location⟩] }
            else some (.error .InvalidPiece, ev4)
          | (false, ev4) =>
            match Operation.parse ev4.pc ev4.bytecode ev4.address_size ev4.format with
            | .error e => some (.error e, ev4)
            | .ok (.Piece size_in_bits bit_offset, pc5) =>
              Evaluation.evaluate_internal fuel
                { ev4 with pc := pc5,
                           result := ev4.result ++ [⟨some size_in_bits, bit_offset, location⟩] }
            | .ok (_, pc5) =>
              some (.error (.InvalidExpressionTerminator
                      (ev4.bytecode.length - pc5.length - 1)),
                    { ev4 with pc := pc5 })
        | (.ok (.Waiting w r), ev3) =>
          some (.ok r, { ev3 with state := .Waiting w })

/-- The result of calling an entry point: `ok`/`err` carry the evaluator
after the call (the Rust methods mutate `self` in place); `panicked`
models the API-contract panics. -/
inductive EntryResult where
  | ok (r : EvaluationResult) (ev : Evaluation)
  | err (e : Error) (ev : Evaluation)
  | panicked
  deriving DecidableEq, Repr

/-- The visible outcome of an entry point, without the evaluator. -/
inductive Outcome where
  | ok (r : EvaluationResult)
  | err (e : Error)
  | panicked
  deriving DecidableEq, Repr

/-- Observation helper: the outcome of an entry result. -/
def EntryResult.outcome : EntryResult → Outcome
  | .ok r _ => .ok r
  | .err e _ => .err e
  | .panicked => .panicked

/-- Observation helper: the evaluator after an entry point returned
(none after a panic). -/
def EntryResult.post : EntryResult → Option Evaluation
  | .ok _ ev => some ev
  | .err _ ev => some ev
  | .panicked => none

/-- Plumbing from the internal loop result to an entry result, without
touching the state: this is how every `resume_with_*` method returns
`self.evaluate_internal()`. -/
def liftInternal :
    Option ((Except Error EvaluationResult) × Evaluation) → Option EntryResult
  | none => none
  | some (.ok r, ev) => some (.ok r ev)
  | some (.error e, ev) => some (.err e ev)

/-- The tail of `Evaluation::evaluate` (source lines 1389-1395): run the
internal loop and record a first error in the state. -/
def evaluateRun (fuel : Nat) (ev : Evaluation) : Option EntryResult :=
  match Evaluation.evaluate_internal fuel ev with
  | none => none
  | some (.ok r, ev') => some (.ok r ev')
  | some (.error e, ev') => some (.err e { ev' with state := .Error e })

/-- Evaluate a DWARF expression (`Evaluation::evaluate`). -/
def Evaluation.evaluate (fuel : Nat) (ev : Evaluation) : Option EntryResult :=
  match ev.state with
  | .Start initial_value =>
    let ev := match initial_value with
      | some value => ev.push (.Generic value)
      | none => ev
    evaluateRun fuel { ev with state := .Ready }
  | .Ready => evaluateRun fuel ev
  | .Error e => some (.err e ev)
  | .Complete => some (.ok .Complete ev)
  | .Waiting _ => some .panicked

/-- Resume with a memory value (`Evaluation::resume_with_memory`). -/
def Evaluation.resume_with_memory (fuel : Nat) (value : Value)
    (ev : Evaluation) : Option EntryResult :=
  match ev.state with
  | .Error e => some (.err e ev)
  | .Waiting .Memory =>
    liftInternal (Evaluation.evaluate_internal fuel (ev.push value))
  | _ => some .panicked

/-- Resume with a register value (`Evaluation::resume_with_register`). -/
def Evaluation.resume_with_register (fuel : Nat) (value : Value)
    (ev : Evaluation) : Option EntryResult :=
  match ev.state with
  | .Error e => some (.err e ev)
  | .Waiting (.Register offset) =>
    match Value.from_u64 value.value_type ((offset % (2 ^ 64 : Int)).toNat) with
    | .error e => some (.err e ev)
    | .ok offsetValue =>
      match value.add offsetValue ev.addr_mask with
      | .error e => some (.err e ev)
      | .ok value => liftInternal (Evaluation.evaluate_internal fuel (ev.push value))
  | _ => some .panicked

/-- Resume with the frame base (`Evaluation::resume_with_frame_base`). -/
def Evaluation.resume_with_frame_base (fuel : Nat) (frame_base : Nat)
    (ev : Evaluation) : Option EntryResult :=
  match ev.state with
  | .Error e => some (.err e ev)
  | .Waiting (.FrameBase offset) =>
    liftInternal (Evaluation.evaluate_internal fuel
      (ev.push (.Generic ((frame_base + (offset % (2 ^ 64 : Int)).toNat) % 2 ^ 64))))
  | _ => some .panicked

/-- Resume with a TLS value (`Evaluation::resume_with_tls`). -/
def Evaluation.resume_with_tls (fuel : Nat) (value : Nat)
    (ev : Evaluation) : Option EntryResult :=
  match ev.state with
  | .Error e => some (.err e ev)
  | .Waiting .Tls =>
    liftInternal (Evaluation.evaluate_internal fuel (ev.push (.Generic value)))
  | _ => some .panicked

/-- Resume with the CFA (`Evaluation::resume_with_call_frame_cfa`). -/
def Evaluation.resume_with_call_frame_cfa (fuel : Nat) (cfa : Nat)
    (ev : Evaluation) : Option EntryResult :=
  match ev.state with
  | .Error e => some (.err e ev)
  | .Waiting .Cfa =>
    liftInternal (Evaluation.evaluate_internal fuel (ev.push (.Generic cfa)))
  | _ => some .panicked

/-- Resume with sub-expression bytes
(`Evaluation::resume_with_at_location`): a non-empty slice saves the
current (pc, bytecode) on the expression call stack and installs the new
bytes as both pc and bytecode; an empty slice changes nothing. -/
def Evaluation.resume_with_at_location (fuel : Nat) (bytes : List Nat)
    (ev : Evaluation) : Option EntryResult :=
  match ev.state with
  | .Error e => some (.err e ev)
  | .Waiting .AtLocation =>
    let ev :=
      if bytes.isEmpty then ev
      else
        { ev with pc := bytes, bytecode := bytes,
                  expression_stack := (ev.pc, ev.bytecode) :: ev.expression_stack }
    liftInternal (Evaluation.evaluate_internal fuel ev)
  | _ => some .panicked

/-- Resume with an entry value (`Evaluation::resume_with_entry_value`). -/
def Evaluation.resume_with_entry_value (fuel : Nat) (entry_value : Value)
    (ev : Evaluation) : Option EntryResult :=
  match ev.state with
  | .Error e => some (.err e ev)
  | .Waiting .EntryValue =>
    liftInternal (Evaluation.evaluate_internal fuel (ev.push entry_value))
  | _ => some .panicked

/-- Resume with a parameter value
(`Evaluation::resume_with_parameter_ref`). -/
def Evaluation.resume_with_parameter_ref (fuel : Nat) (parameter_value : Nat)
    (ev : Evaluation) : Option EntryResult :=
  match ev.state with
  | .Error e => some (.err e ev)
  | .Waiting .ParameterRef =>
    liftInternal (Evaluation.evaluate_internal fuel
      (ev.push (.Generic parameter_value)))
  | _ => some .panicked

/-- Resume with a relocated address
(`Evaluation::resume_with_relocated_address`). -/
def Evaluation.resume_with_relocated_address (fuel : Nat) (address : Nat)
    (ev : Evaluation) : Option EntryResult :=
  match ev.state with
  | .Error e => some (.err e ev)
  | .Waiting .RelocatedAddress =>
    liftInternal (Evaluation.evaluate_internal fuel (ev.push (.Generic address)))
  | _ => some .panicked

/-- Resume with a base type (`Evaluation::resume_with_base_type`). -/
def Evaluation.resume_with_base_type (fuel : Nat) (base_type : ValueType)
    (ev : Evaluation) : Option EntryResult :=
  match ev.state with
  | .Error e => some (.err e ev)
  | .Waiting (.TypedLiteral value) =>
    match Value.parse base_type value with
    | .error e => some (.err e ev)
    | .ok v => liftInternal (Evaluation.evaluate_internal fuel (ev.push v))
  | .Waiting .Convert =>
    match ev.pop with
    | (.error e, ev) => some (.err e ev)
    | (.ok entry, ev) =>
      match entry.convert base_type ev.addr_mask with
      | .error e => some (.err e ev)
      | .ok v => liftInternal (Evaluation.evaluate_internal fuel (ev.push v))
  | .Waiting .Reinterpret =>
    match ev.pop with
    | (.error e, ev) => some (.err e ev)
    | (.ok entry, ev) =>
      match entry.reinterpret base_type ev.addr_mask with
      | .error e => some (.err e ev)
      | .ok v => liftInternal (Evaluation.evaluate_internal fuel (ev.push v))
  | _ => some .panicked

/-- Little-endian byte encoding, used to state decoder theorems. -/
def leBytes : Nat → Nat → List Nat
  | 0, _ => []
  | n + 1, v => (v % 256) :: leBytes n (v / 256)

/-- Concrete evaluator for the error-latching counterexample:
`lit0 deref drop drop`. -/
def c1ev : Evaluation := Evaluation.new [0x30, 0x06, 0x13, 0x13] 8 .Dwarf32

/-- The evaluator state after `evaluate` on `c1ev` suspends with
`RequiresMemory` (lit0 pushed, deref popped it). -/
def c1ev1 : Evaluation :=
  { bytecode := [0x30, 0x06, 0x13, 0x13], address_size := 8, format := .Dwarf32,
    object_address := none, max_iterations := none, iteration := 2,
    state := .Waiting .Memory, addr_mask := 18446744073709551615,
    stack := [], pc := [0x13, 0x13], expression_stack := [], result := [] }

/-- The evaluator state after the first `resume_with_memory` returned
`NotEnoughStackItems`: the state is still `Waiting Memory`, and the
cursor has advanced past both `drop`s. -/
def c1ev2 : Evaluation :=
  { bytecode := [0x30, 0x06, 0x13, 0x13], address_size := 8, format := .Dwarf32,
    object_address := none, max_iterations := none, iteration := 4,
    state := .Waiting .Memory, addr_mask := 18446744073709551615,
    stack := [], pc := [], expression_stack := [], result := [] }

/-- The evaluator state after the second `resume_with_memory`
completed. -/
def c1ev3 : Evaluation :=
  { bytecode := [0x30, 0x06, 0x13, 0x13], address_size := 8, format := .Dwarf32,
    object_address := none, max_iterations := none, iteration := 4,
    state := .Complete, addr_mask := 18446744073709551615,
    stack := [], pc := [], expression_stack := [],
    result := [⟨none, none, .Address 9⟩] }

/-- Concrete evaluator for the terminator-offset counterexample:
`reg0 const1u 1`: the `const1u` operation starts at byte offset 1 and its
last byte is at offset 2. -/
def c2ev : Evaluation := Evaluation.new [0x50, 0x08, 0x01] 8 .Dwarf32


/-- The evaluator state after the run of `c2ev` failed with
`InvalidExpressionTerminator 2`. -/
def c2ev1 : Evaluation :=
  { bytecode := [0x50, 0x08, 0x01], address_size := 8, format := .Dwarf32,
    object_address := none, max_iterations := none, iteration := 1,
    state := .Error (.InvalidExpressionTerminator 2),
    addr_mask := 18446744073709551615,
    stack := [], pc := [], expression_stack := [], result := [] }

/-- Concrete evaluator for the iteration-count counterexample:
`reg0 piece 1` (two decoded operations) with `max_iterations = 1`; this
record is `(Evaluation.new [0x50, 0x93, 0x01] 8 .Dwarf32).set_max_iterations 1`
spelled out. -/
def c5ev : Evaluation :=
  { bytecode := [0x50, 0x93, 0x01], address_size := 8, format := .Dwarf32,
    object_address := none, max_iterations := some 1, iteration := 0,
    state := .Start none, addr_mask := 18446744073709551615,
    stack := [], pc := [0x50, 0x93, 0x01], expression_stack := [], result := [] }

/-- The evaluator state after the run of `c5ev` completed: one loop
iteration despite two decoded operations. -/
def c5ev1 : Evaluation :=
  { bytecode := [0x50, 0x93, 0x01], address_size := 8, format := .Dwarf32,
    object_address := none, max_iterations := some 1, iteration := 1,
    state := .Complete, addr_mask := 18446744073709551615,
    stack := [], pc := [], expression_stack := [],
    result := [⟨some 8, none, .Register 0⟩] }

/-- Concrete evaluator at end of expression under `address_size = 4`,
with one stack value wider than the address mask. -/
def c3ev : Evaluation :=
  { Evaluation.new [] 4 .Dwarf32 with
      state := .Ready, stack := [.Generic 0x1122334455667788] }

/- Helper lemmas about the evaluator loop. -/

/-- When the end-of-expression loop reports true, the restored cursor and
the call stack are both empty. -/
theorem end_of_expressionAux_true (stack : List (List Nat × List Nat)) :
    ∀ pc bytecode pc' bytecode' stack',
      end_of_expressionAux stack pc bytecode = (true, pc', bytecode', stack') →
      pc' = [] ∧ stack' = [] := by
  induction stack with
  | nil =>
    intro pc bytecode pc' bytecode' stack' h
    unfold end_of_expressionAux at h
    by_cases hpc : pc.isEmpty
    · simp only [hpc, if_true, Prod.mk.injEq] at h
      obtain ⟨-, h2, h3, h4⟩ := h
      exact ⟨h2 ▸ List.isEmpty_iff.mp hpc, h4.symm⟩
    · simp [hpc] at h
  | cons hd tl ih =>
    intro pc bytecode pc' bytecode' stack' h
    unfold end_of_expressionAux at h
    by_cases hpc : pc.isEmpty
    · rcases hd with ⟨newpc, newbytes⟩
      simp only [hpc, if_true] at h
      exact ih newpc newbytes pc' bytecode' stack' h
    · simp [hpc] at h

/-- The end-of-expression check never touches the stack, result,
lifecycle state, or configuration fields. -/
theorem end_of_expression_config (ev : Evaluation) :
    ev.end_of_expression.2.max_iterations = ev.max_iterations ∧
    ev.end_of_expression.2.iteration = ev.iteration ∧
    ev.end_of_expression.2.stack = ev.stack ∧
    ev.end_of_expression.2.result = ev.result ∧
    ev.end_of_expression.2.state = ev.state ∧
    ev.end_of_expression.2.addr_mask = ev.addr_mask ∧
    ev.end_of_expression.2.address_size = ev.address_size ∧
    ev.end_of_expression.2.format = ev.format ∧
    ev.end_of_expression.2.object_address = ev.object_address := by
  unfold Evaluation.end_of_expression
  rcases h : end_of_expressionAux ev.expression_stack ev.pc ev.bytecode with
    ⟨b, pc, bytecode, stack⟩
  simp

/-- A true end of expression leaves an empty cursor and an empty call
stack. -/
theorem end_of_expression_true_empty (ev ev' : Evaluation)
    (h : ev.end_of_expression = (true, ev')) :
    ev'.pc = [] ∧ ev'.expression_stack = [] := by
  unfold Evaluation.end_of_expression at h
  rcases haux : end_of_expressionAux ev.expression_stack ev.pc ev.bytecode with
    ⟨b, pc, bytecode, stack⟩
  rw [haux] at h
  rcases h with ⟨⟩
  have := end_of_expressionAux_true ev.expression_stack ev.pc ev.bytecode pc bytecode stack haux
  simpa using this

/-- With an empty cursor and an empty call stack, the end-of-expression
check reports true and changes nothing. -/
theorem end_of_expression_of_empty (ev : Evaluation)
    (hpc : ev.pc = []) (hstack : ev.expression_stack = []) :
    ev.end_of_expression = (true, ev) := by
  rcases ev with ⟨bytecode, address_size, format, object_address, max_iterations,
    iteration, state, addr_mask, stack, pc, expression_stack, result⟩
  simp only at hpc hstack
  subst hpc hstack
  simp [Evaluation.end_of_expression, end_of_expressionAux]

/-- A non-empty cursor means the expression has not ended and nothing is
restored. -/
theorem end_of_expression_of_nonempty (ev : Evaluation) (hpc : ev.pc ≠ []) :
    ev.end_of_expression = (false, ev) := by
  have hne : ev.pc.isEmpty = false := by simpa [List.isEmpty_iff] using hpc
  rcases ev with ⟨bytecode, address_size, format, object_address, max_iterations,
    iteration, state, addr_mask, stack, pc, expression_stack, result⟩
  simp only at hne
  unfold Evaluation.end_of_expression end_of_expressionAux
  simp [hne]

/-- C4: for a cursor inside a bytecode base and a signed 16-bit delta,
`compute_pc` returns the base advanced by the `usize`-wrapped sum of the
cursor's offset and the delta whenever that sum is at most the base
length (advancing to exactly the length yields an empty cursor), and
fails with `BadBranchTarget` carrying the wrapped sum when it is
strictly greater. -/
theorem compute_pc_spec (pc bytecode : List Nat) (delta : Int) (w : Nat)
    (hpc : pc.length ≤ bytecode.length)
    (hw : (w : Int) = ((bytecode.length : Int) - (pc.length : Int) + delta) % (2 ^ 64 : Int)) :
    (w ≤ bytecode.length →
       compute_pc pc bytecode delta = .ok (bytecode.drop w) ∧
       (w = bytecode.length → bytecode.drop w = [])) ∧
    (bytecode.length < w →
       compute_pc pc bytecode delta = .error (.BadBranchTarget w)) := by
  have hsub : ((bytecode.length - pc.length : Nat) : Int) =
      (bytecode.length : Int) - (pc.length : Int) := by
    omega
  have hkey : (((bytecode.length - pc.length : Nat) : Int) + delta) % (2 ^ 64 : Int) = (w : Int) := by
    rw [hsub, ← hw]
  simp only [compute_pc]
  rw [hkey]
  simp only [Int.toNat_natCast]
  constructor
  · intro hle
    rw [if_neg (by omega)]
    exact ⟨rfl, fun he => by rw [he]; simp⟩
  · intro hgt
    rw [if_pos hgt]

/-- C4 witness: in a 3-byte base with the cursor at offset 1, a delta of
2 branches to exactly one past the end (an empty cursor) and a delta of
5 fails with `BadBranchTarget 6`. -/
theorem compute_pc_spec_witness :
    compute_pc [9, 9] [9, 9, 9] 2 = .ok [] ∧
    compute_pc [9, 9] [9, 9, 9] 5 = .error (.BadBranchTarget 6) := by
  constructor
  · have h := ((compute_pc_spec [9, 9] [9, 9, 9] 2 3 (by decide) (by decide)).1 (by decide)).1
    rw [h]
    rfl
  · exact (compute_pc_spec [9, 9] [9, 9, 9] 5 6 (by decide) (by decide)).2 (by decide)

/-- C9: on an evaluator whose state is `Complete`, `evaluate` returns
`Ok(Complete)` again without panicking and without changing the
evaluator (in particular its state, stack and pieces are untouched). -/
theorem evaluate_after_complete (fuel : Nat) (ev : Evaluation)
    (h : ev.state = .Complete) :
    Evaluation.evaluate fuel ev = some (.ok .Complete ev) := by
  unfold Evaluation.evaluate
  rw [h]

/-- C9 witness: a concrete completed evaluator. -/
theorem evaluate_after_complete_witness :
    Evaluation.evaluate 0 { Evaluation.new [] 8 .Dwarf32 with state := .Complete } =
      some (.ok .Complete { Evaluation.new [] 8 .Dwarf32 with state := .Complete }) :=
  evaluate_after_complete 0 { Evaluation.new [] 8 .Dwarf32 with state := .Complete } rfl

/-- C10: at a true end of expression with no pieces and an empty value
stack, the final pop fails and the evaluation returns
`NotEnoughStackItems`; in particular a zero-length expression with no
initial value fails that way (for every fuel). -/
theorem empty_stack_at_end_errors :
    (∀ fuel ev ev1, ev.end_of_expression = (true, ev1) → ev1.result = [] →
       ev1.stack = [] →
       Evaluation.evaluate_internal fuel ev = some (.error .NotEnoughStackItems, ev1)) ∧
    (∀ fuel, Evaluation.evaluate fuel (Evaluation.new [] 8 .Dwarf32) =
       some (.err .NotEnoughStackItems
         { Evaluation.new [] 8 .Dwarf32 with state := .Error .NotEnoughStackItems })) := by
  constructor
  · intro fuel ev ev1 hend hres hstack
    have hfinal : ev1.evaluate_final = (.error .NotEnoughStackItems, ev1) := by
      unfold Evaluation.evaluate_final
      rw [if_pos (by simp [hres])]
      simp [Evaluation.pop, andThen, hstack]
    cases fuel <;>
      · unfold Evaluation.evaluate_internal
        rw [hend]
        show some ev1.evaluate_final = _
        rw [hfinal]
  · intro fuel
    cases fuel <;> rfl

/-- C10 witness: instantiate the universal part on the zero-length
expression itself. -/
theorem empty_stack_at_end_errors_witness :
    Evaluation.evaluate_internal 0
        { Evaluation.new [] 8 .Dwarf32 with state := .Ready } =
      some (.error .NotEnoughStackItems,
        { Evaluation.new [] 8 .Dwarf32 with state := .Ready }) :=
  empty_stack_at_end_errors.1 0
    { Evaluation.new [] 8 .Dwarf32 with state := .Ready }
    { Evaluation.new [] 8 .Dwarf32 with state := .Ready } rfl rfl rfl

/-- C3: at a true end of expression with no pieces accumulated, the
evaluator pops the top stack value, masks it with `addr_mask`, appends
exactly one piece `Address` with no size and no bit offset, and
transitions to `Complete`. -/
theorem end_fallback_address_piece (fuel : Nat) (ev ev1 : Evaluation)
    (s : List Value) (v : Nat)
    (hend : ev.end_of_expression = (true, ev1))
    (hres : ev1.result = [])
    (hstack : ev1.stack = s ++ [.Generic v]) :
    Evaluation.evaluate_internal fuel ev =
      some (.ok .Complete,
        { ev1 with stack := s,
                   result := [⟨none, none, .Address (v &&& ev1.addr_mask)⟩],
                   state := .Complete }) := by
  have hfinal : ev1.evaluate_final =
      (.ok .Complete,
        { ev1 with stack := s,
                   result := [⟨none, none, .Address (v &&& ev1.addr_mask)⟩],
                   state := .Complete }) := by
    unfold Evaluation.evaluate_final
    rw [if_pos (by simp [hres])]
    simp [Evaluation.pop, andThen, bindVal, hstack, Value.to_u64, hres]
  cases fuel <;>
    · unfold Evaluation.evaluate_internal
      rw [hend]
      show some ev1.evaluate_final = _
      rw [hfinal]

/-- C3 witness: under `address_size = 4` the one stack value
`0x1122334455667788` is truncated to the masked address `0x55667788`. -/
theorem end_fallback_address_piece_witness :
    Evaluation.evaluate_internal 0 c3ev =
      some (.ok .Complete,
        { c3ev with stack := [],
                    result := [⟨none, none, .Address 0x55667788⟩],
                    state := .Complete }) := by
  have h := end_fallback_address_piece 0 c3ev c3ev [] 0x1122334455667788 rfl rfl rfl
  rw [h]
  rfl

/-- C7: a `Pick index` operation fails with `NotEnoughStackItems` when
`index` is not below the stack length, and otherwise pushes a copy of
the stack element at position `length - 1 - index` (`Vec` order, bottom
at 0), leaving the rest of the stack unchanged; `dup` decodes to
`Pick 0`, `over` to `Pick 1` and `pick b` to `Pick b`. -/
theorem pick_spec :
    (∀ (ev : Evaluation) (index : Nat) (pc' : List Nat),
       Operation.parse ev.pc ev.bytecode ev.address_size ev.format =
         .ok (.Pick index, pc') →
       ((ev.stack.length ≤ index →
           ev.evaluate_one_operation =
             (.error .NotEnoughStackItems, { ev with pc := pc' })) ∧
        (∀ v, index < ev.stack.length →
           ev.stack[ev.stack.length - 1 - index]? = some v →
           ev.evaluate_one_operation =
             (.ok .Incomplete, { ev with pc := pc', stack := ev.stack ++ [v] })))) ∧
    (∀ (rest bytecode : List Nat) (address_size : Nat) (format : Format),
       Operation.parse (0x12 :: rest) bytecode address_size format =
         .ok (.Pick 0, rest)) ∧
    (∀ (rest bytecode : List Nat) (address_size : Nat) (format : Format),
       Operation.parse (0x14 :: rest) bytecode address_size format =
         .ok (.Pick 1, rest)) ∧
    (∀ (b : Nat) (rest bytecode : List Nat) (address_size : Nat) (format : Format),
       Operation.parse (0x15 :: b :: rest) bytecode address_size format =
         .ok (.Pick b, rest)) := by
  refine ⟨?_, fun rest bytecode address_size format => rfl,
          fun rest bytecode address_size format => rfl,
          fun b rest bytecode address_size format => rfl⟩
  intro ev index pc' hparse
  constructor
  · intro hle
    simp only [Evaluation.evaluate_one_operation, hparse]
    rw [if_pos (by simpa using hle)]
  · intro v hidxlt hv
    have hidx : ev.stack.length - index - 1 = ev.stack.length - 1 - index := by
      omega
    have hnle : ¬ ev.stack.length ≤ index := by omega
    simp only [Evaluation.evaluate_one_operation, hparse]
    rw [if_neg (by simpa using hnle)]
    have hget : ev.stack.getD (ev.stack.length - index - 1) (.Generic 0) = v := by
      rw [hidx, List.getD_eq_getElem?_getD, hv]
      rfl
    simp [Evaluation.push, hget]
    rw [hidx, hv]
    rfl

/-- C7 witness: `pick 1` on stack `[5, 6]` copies the element at
position `2 - 1 - 1 = 0` (value 5); `dup` on an empty stack fails with
`NotEnoughStackItems`. -/
theorem pick_spec_witness :
    ({ Evaluation.new [0x15, 0x01] 8 .Dwarf32 with
         state := .Ready, stack := [.Generic 5, .Generic 6] } : Evaluation).evaluate_one_operation =
      (.ok .Incomplete,
        { Evaluation.new [0x15, 0x01] 8 .Dwarf32 with
            state := .Ready, stack := [.Generic 5, .Generic 6, .Generic 5], pc := [] }) ∧
    ({ Evaluation.new [0x12] 8 .Dwarf32 with
         state := .Ready } : Evaluation).evaluate_one_operation =
      (.error .NotEnoughStackItems,
        { Evaluation.new [0x12] 8 .Dwarf32 with state := .Ready, pc := [] }) := by
  have h1 := (pick_spec.1
    { Evaluation.new [0x15, 0x01] 8 .Dwarf32 with
        state := .Ready, stack := [.Generic 5, .Generic 6] } 1 [] rfl).2
    (.Generic 5) (by decide) rfl
  have h2 := (pick_spec.1
    { Evaluation.new [0x12] 8 .Dwarf32 with state := .Ready } 0 [] rfl).1 (by decide)
  exact ⟨by rw [h1]; rfl, by rw [h2]⟩

/-- Helper for decoder theorems: `readLE` inverts the little-endian
encoding `leBytes` on values that fit. -/
theorem readLE_leBytes (n : Nat) :
    ∀ (v : Nat) (rest : List Nat), v < 2 ^ (8 * n) →
      readLE n (leBytes n v ++ rest) = .ok (v, rest) := by
  induction n with
  | zero =>
    intro v rest hv
    interval_cases v
    rfl
  | succ n ih =>
    intro v rest hv
    have hpow : 2 ^ (8 * (n + 1)) = 2 ^ (8 * n) * 256 := by ring
    have hdiv : v / 256 < 2 ^ (8 * n) := by omega
    have ihv := ih (v / 256) rest hdiv
    simp only [leBytes, List.cons_append, readLE, List.append_eq, ihv, Except.ok.injEq,
      Prod.mk.injEq]
    exact ⟨by omega, trivial⟩

/-- C6: every `DW_OP_lit{k}` opcode decodes to `Literal k`, and each
signed constant form (`const1s`, `const2s`, `const4s`, `const8s`,
`consts`) encoding a signed value decodes to `Literal` holding that
value bit-cast (mod `2 ^ 64`) to unsigned. -/
theorem literal_decode_spec :
    (∀ (k : Nat) (rest bytecode : List Nat) (address_size : Nat) (format : Format),
       k < 32 →
       Operation.parse ((0x30 + k) :: rest) bytecode address_size format =
         .ok (.Literal k, rest)) ∧
    (∀ (v : Int) (rest bytecode : List Nat) (address_size : Nat) (format : Format),
       -(2 ^ 7) ≤ v → v < 2 ^ 7 →
       Operation.parse (0x09 :: (v % 2 ^ 8).toNat :: rest) bytecode address_size format =
         .ok (.Literal ((v % 2 ^ 64).toNat), rest)) ∧
    (∀ (v : Int) (rest bytecode : List Nat) (address_size : Nat) (format : Format),
       -(2 ^ 15) ≤ v → v < 2 ^ 15 →
       Operation.parse (0x0b :: (leBytes 2 ((v % 2 ^ 16).toNat) ++ rest)) bytecode address_size format =
         .ok (.Literal ((v % 2 ^ 64).toNat), rest)) ∧
    (∀ (v : Int) (rest bytecode : List Nat) (address_size : Nat) (format : Format),
       -(2 ^ 31) ≤ v → v < 2 ^ 31 →
       Operation.parse (0x0d :: (leBytes 4 ((v % 2 ^ 32).toNat) ++ rest)) bytecode address_size format =
         .ok (.Literal ((v % 2 ^ 64).toNat), rest)) ∧
    (∀ (v : Int) (rest bytecode : List Nat) (address_size : Nat) (format : Format),
       -(2 ^ 63) ≤ v → v < 2 ^ 63 →
       Operation.parse (0x0f :: (leBytes 8 ((v % 2 ^ 64).toNat) ++ rest)) bytecode address_size format =
         .ok (.Literal ((v % 2 ^ 64).toNat), rest)) ∧
    (∀ (bs : List Nat) (v : Int) (rest bytecode : List Nat) (address_size : Nat) (format : Format),
       read_sleb128 bs = .ok (v, rest) →
       Operation.parse (0x11 :: bs) bytecode address_size format =
         .ok (.Literal ((v % 2 ^ 64).toNat), rest)) := by
  refine ⟨?_, ?_, ?_, ?_, ?_, ?_⟩
  · intro k rest bytecode address_size format hk
    interval_cases k <;> rfl
  · intro v rest bytecode address_size format h1 h2
    have hstep : Operation.parse (0x09 :: (v % 2 ^ 8).toNat :: rest) bytecode address_size format =
        .ok (.Literal ((toSigned ((v % 2 ^ 8).toNat) 8 % 2 ^ 64).toNat), rest) := rfl
    rw [hstep]
    have harith : toSigned ((v % 2 ^ 8).toNat) 8 % (2 ^ 64 : Int) = v % 2 ^ 64 := by
      unfold toSigned
      split <;> omega
    rw [harith]
  · intro v rest bytecode address_size format h1 h2
    have hle := readLE_leBytes 2 ((v % 2 ^ 16).toNat) rest (by omega)
    have harith : toSigned ((v % 2 ^ 16).toNat) 16 % (2 ^ 64 : Int) = v % 2 ^ 64 := by
      unfold toSigned
      split <;> omega
    norm_num at hle harith
    simp [Operation.parse, read_u8, read_i16, read_u16, hle, harith, bind, Except.bind,
      pure, Except.pure]
  · intro v rest bytecode address_size format h1 h2
    have hle := readLE_leBytes 4 ((v % 2 ^ 32).toNat) rest (by omega)
    have harith : toSigned ((v % 2 ^ 32).toNat) 32 % (2 ^ 64 : Int) = v % 2 ^ 64 := by
      unfold toSigned
      split <;> omega
    norm_num at hle harith
    simp [Operation.parse, read_u8, read_i32, read_u32, hle, harith, bind, Except.bind,
      pure, Except.pure]
  · intro v rest bytecode address_size format h1 h2
    have hle := readLE_leBytes 8 ((v % 2 ^ 64).toNat) rest (by omega)
    have harith : toSigned ((v % 2 ^ 64).toNat) 64 % (2 ^ 64 : Int) = v % 2 ^ 64 := by
      unfold toSigned
      split <;> omega
    norm_num at hle harith
    simp [Operation.parse, read_u8, read_i64, read_u64, hle, harith, bind, Except.bind,
      pure, Except.pure]
  · intro bs v rest bytecode address_size format h
    simp [Operation.parse, read_u8, h, bind, Except.bind, pure, Except.pure]

/-- C6 witness: `lit7` gives `Literal 7`; `const1s -2` (byte 0xfe) gives
the bit-cast `0xfffffffffffffffe`; `consts -1` (SLEB `0x7f`) gives
`0xffffffffffffffff`. -/
theorem literal_decode_spec_witness :
    Operation.parse [0x37] [] 8 .Dwarf32 = .ok (.Literal 7, []) ∧
    Operation.parse [0x09, 0xfe] [] 8 .Dwarf32 =
      .ok (.Literal 0xfffffffffffffffe, []) ∧
    Operation.parse [0x11, 0x7f] [] 8 .Dwarf32 =
      .ok (.Literal 0xffffffffffffffff, []) := by
  refine ⟨?_, ?_, ?_⟩
  · exact literal_decode_spec.1 7 [] [] 8 .Dwarf32 (by norm_num)
  · have h := literal_decode_spec.2.1 (-2) [] [] 8 .Dwarf32 (by norm_num) (by norm_num)
    norm_num at h
    exact h
  · have h := literal_decode_spec.2.2.2.2.2 [0x7f] (-1) [] [] 8 .Dwarf32
      (by simp [read_sleb128, read_sleb128Loop])
    norm_num at h
    exact h

set_option maxHeartbeats 1600000 in
/-- C1 counterexample: on `lit0 deref drop drop`, the first
`resume_with_memory` returns `NotEnoughStackItems`, but the state is
left `Waiting(Memory)` rather than `Error`, and a second
`resume_with_memory` then returns `Ok(Complete)` with partial progress
instead of the stored error. -/
theorem resume_error_not_latched :
    Evaluation.evaluate 9 c1ev = some (.ok (.RequiresMemory 0 8 none 0) c1ev1) ∧
    Evaluation.resume_with_memory 9 (.Generic 7) c1ev1 =
      some (.err .NotEnoughStackItems c1ev2) ∧
    c1ev2.state = .Waiting .Memory ∧
    c1ev2.state ≠ .Error .NotEnoughStackItems ∧
    Evaluation.resume_with_memory 9 (.Generic 9) c1ev2 =
      some (.ok .Complete c1ev3) := by
  exact ⟨rfl, rfl, rfl, by decide, rfl⟩

/-- A run through `evaluateRun` that returns an error has recorded that
error in the state. -/
theorem evaluateRun_err (fuel : Nat) (ev ev' : Evaluation) (e : Error)
    (h : evaluateRun fuel ev = some (.err e ev')) : ev'.state = .Error e := by
  unfold evaluateRun at h
  rcases hint : Evaluation.evaluate_internal fuel ev with - | ⟨r, ev2⟩ <;> rw [hint] at h
  · exact absurd h (by simp)
  · cases r with
    | ok r => exact absurd h (by simp)
    | error e2 =>
      simp only [Option.some.injEq, EntryResult.err.injEq] at h
      rw [← h.2]
      simp [h.1]

/-- C1 amended: an error returned by `evaluate` is recorded, so the
post-call state is `Error(e)`; and whenever the state is `Error(e)`,
every entry point returns that stored error without modifying the
evaluator.  (Errors returned by the `resume_with_*` methods are not
recorded in the state.) -/
theorem error_latch_and_sticky :
    (∀ (fuel : Nat) (ev : Evaluation) (e : Error) (ev' : Evaluation),
       Evaluation.evaluate fuel ev = some (.err e ev') → ev'.state = .Error e) ∧
    (∀ (ev : Evaluation) (e : Error), ev.state = .Error e →
       (∀ fuel, Evaluation.evaluate fuel ev = some (.err e ev)) ∧
       (∀ fuel value, Evaluation.resume_with_memory fuel value ev = some (.err e ev)) ∧
       (∀ fuel value, Evaluation.resume_with_register fuel value ev = some (.err e ev)) ∧
       (∀ fuel fb, Evaluation.resume_with_frame_base fuel fb ev = some (.err e ev)) ∧
       (∀ fuel value, Evaluation.resume_with_tls fuel value ev = some (.err e ev)) ∧
       (∀ fuel cfa, Evaluation.resume_with_call_frame_cfa fuel cfa ev = some (.err e ev)) ∧
       (∀ fuel bytes, Evaluation.resume_with_at_location fuel bytes ev = some (.err e ev)) ∧
       (∀ fuel value, Evaluation.resume_with_entry_value fuel value ev = some (.err e ev)) ∧
       (∀ fuel value, Evaluation.resume_with_parameter_ref fuel value ev = some (.err e ev)) ∧
       (∀ fuel address, Evaluation.resume_with_relocated_address fuel address ev = some (.err e ev)) ∧
       (∀ fuel bt, Evaluation.resume_with_base_type fuel bt ev = some (.err e ev))) := by
  constructor
  · intro fuel ev e ev' h
    unfold Evaluation.evaluate at h
    cases hs : ev.state <;> rw [hs] at h
    case Start initial_value => exact evaluateRun_err _ _ _ _ h
    case Ready => exact evaluateRun_err _ _ _ _ h
    case Error e0 =>
      have h' : some (EntryResult.err e0 ev) = some (.err e ev') := h
      simp only [Option.some.injEq, EntryResult.err.injEq] at h'
      rw [← h'.2, hs, h'.1]
    case Complete =>
      have h' : some (EntryResult.ok .Complete ev) = some (.err e ev') := h
      exact absurd h' (by simp)
    case Waiting w =>
      have h' : some EntryResult.panicked = some (.err e ev') := h
      exact absurd h' (by simp)
  · intro ev e h
    refine ⟨?_, ?_, ?_, ?_, ?_, ?_, ?_, ?_, ?_, ?_, ?_⟩
    · intro fuel
      unfold Evaluation.evaluate
      rw [h]
    · intro fuel value
      unfold Evaluation.resume_with_memory
      rw [h]
    · intro fuel value
      unfold Evaluation.resume_with_register
      rw [h]
    · intro fuel fb
      unfold Evaluation.resume_with_frame_base
      rw [h]
    · intro fuel value
      unfold Evaluation.resume_with_tls
      rw [h]
    · intro fuel cfa
      unfold Evaluation.resume_with_call_frame_cfa
      rw [h]
    · intro fuel bytes
      unfold Evaluation.resume_with_at_location
      rw [h]
    · intro fuel value
      unfold Evaluation.resume_with_entry_value
      rw [h]
    · intro fuel value
      unfold Evaluation.resume_with_parameter_ref
      rw [h]
    · intro fuel address
      unfold Evaluation.resume_with_relocated_address
      rw [h]
    · intro fuel bt
      unfold Evaluation.resume_with_base_type
      rw [h]

/-- C1 amended witness: a run of the zero-length expression errors and
latches `Error(NotEnoughStackItems)`; on an evaluator already in an
`Error` state, `evaluate` and `resume_with_memory` both return the
stored error unchanged. -/
theorem error_latch_and_sticky_witness :
    ({ Evaluation.new [] 8 .Dwarf32 with
        state := .Error .NotEnoughStackItems } : Evaluation).state =
      .Error .NotEnoughStackItems ∧
    Evaluation.evaluate 2
        { Evaluation.new [] 8 .Dwarf32 with state := .Error .NotEnoughStackItems } =
      some (.err .NotEnoughStackItems
        { Evaluation.new [] 8 .Dwarf32 with state := .Error .NotEnoughStackItems }) ∧
    Evaluation.resume_with_memory 2 (.Generic 0)
        { Evaluation.new [] 8 .Dwarf32 with state := .Error .NotEnoughStackItems } =
      some (.err .NotEnoughStackItems
        { Evaluation.new [] 8 .Dwarf32 with state := .Error .NotEnoughStackItems }) := by
  refine ⟨rfl, ?_, ?_⟩
  · exact (error_latch_and_sticky.2
      { Evaluation.new [] 8 .Dwarf32 with state := .Error .NotEnoughStackItems }
      .NotEnoughStackItems rfl).1 2
  · exact (error_latch_and_sticky.2
      { Evaluation.new [] 8 .Dwarf32 with state := .Error .NotEnoughStackItems }
      .NotEnoughStackItems rfl).2.1 2 (.Generic 0)

/-- C2 counterexample: on `reg0 const1u 1` the terminating `reg0` is
followed by `const1u`, which starts at byte offset 1; the claim predicts
`InvalidExpressionTerminator 1`, but the code reports the offset of the
last byte of that operation, `InvalidExpressionTerminator 2` (the value
is `bytecode.len - pc.len - 1` computed after parsing the operation). -/
theorem terminator_offset_cx :
    Evaluation.evaluate 9 c2ev =
      some (.err (.InvalidExpressionTerminator 2) c2ev1) ∧
    Evaluation.evaluate 9 c2ev ≠
      some (.err (.InvalidExpressionTerminator 1) { c2ev1 with
        state := .Error (.InvalidExpressionTerminator 1) }) := by
  refine ⟨rfl, ?_⟩
  intro h
  have h0 : Evaluation.evaluate 9 c2ev =
      some (.err (.InvalidExpressionTerminator 2) c2ev1) := rfl
  rw [h0] at h
  simp at h

theorem complete_location_terminator_spec (fuel : Nat) (ev ev1 ev3 : Evaluation)
    (location : Location)
    (hend : ev.end_of_expression = (false, ev1))
    (hcap : ∀ m, ev1.max_iterations = some m → ev1.iteration + 1 ≤ m)
    (hop : ({ ev1 with iteration := ev1.iteration + 1 } : Evaluation).evaluate_one_operation =
        (.ok (.Complete location), ev3)) :
    (∀ ev4, ev3.end_of_expression = (true, ev4) → ev4.result ≠ [] →
       Evaluation.evaluate_internal (fuel + 1) ev = some (.error .InvalidPiece, ev4)) ∧
    (∀ ev4, ev3.end_of_expression = (true, ev4) → ev4.result = [] →
       Evaluation.evaluate_internal (fuel + 1) ev =
         some (.ok .Complete,
           { ev4 with result := [⟨none, none, location⟩], state := .Complete })) ∧
    (∀ ev4 size_in_bits bit_offset pc5, ev3.end_of_expression = (false, ev4) →
       Operation.parse ev4.pc ev4.bytecode ev4.address_size ev4.format =
         .ok (.Piece size_in_bits bit_offset, pc5) →
       Evaluation.evaluate_internal (fuel + 1) ev =
         Evaluation.evaluate_internal fuel
           { ev4 with pc := pc5,
                      result := ev4.result ++ [⟨some size_in_bits, bit_offset, location⟩] }) ∧
    (∀ ev4 operation pc5, ev3.end_of_expression = (false, ev4) →
       Operation.parse ev4.pc ev4.bytecode ev4.address_size ev4.format = .ok (operation, pc5) →
       (∀ size_in_bits bit_offset, operation ≠ .Piece size_in_bits bit_offset) →
       Evaluation.evaluate_internal (fuel + 1) ev =
         some (.error (.InvalidExpressionTerminator (ev4.bytecode.length - pc5.length - 1)),
               { ev4 with pc := pc5 })) := by
  have hover : (match ({ ev1 with iteration := ev1.iteration + 1 } : Evaluation).max_iterations with
      | some max_iterations => decide (max_iterations < ({ ev1 with iteration := ev1.iteration + 1 } : Evaluation).iteration)
      | none => false) = false := by
    cases hm : ev1.max_iterations with
    | none => simp [hm]
    | some m =>
      have hle := hcap m hm
      simp [hm]
      omega
  have hstep : Evaluation.evaluate_internal (fuel + 1) ev =
      (match ev3.end_of_expression with
       | (true, ev4) =>
         if ev4.result.isEmpty then
           Evaluation.evaluate_internal fuel
             { ev4 with result := ev4.result ++ [⟨none, none, location⟩] }
         else some (.error .InvalidPiece, ev4)
       | (false, ev4) =>
         match Operation.parse ev4.pc ev4.bytecode ev4.address_size ev4.format with
         | .error e => some (.error e, ev4)
         | .ok (.Piece size_in_bits bit_offset, pc5) =>
           Evaluation.evaluate_internal fuel
             { ev4 with pc := pc5,
                        result := ev4.result ++ [⟨some size_in_bits, bit_offset, location⟩] }
         | .ok (_, pc5) =>
           some (.error (.InvalidExpressionTerminator (ev4.bytecode.length - pc5.length - 1)),
                 { ev4 with pc := pc5 })) := by
    conv_lhs => unfold Evaluation.evaluate_internal
    rw [hend]
    simp only [hover, Bool.false_eq_true, if_false, hop]
  rw [hstep]
  refine ⟨?_, ?_, ?_, ?_⟩
  · intro ev4 hend4 hres4
    rw [hend4]
    simp [hres4, List.isEmpty_iff]
  · intro ev4 hend4 hres4
    rw [hend4]
    obtain ⟨hpc4, hstk4⟩ := end_of_expression_true_empty ev3 ev4 hend4
    have hempty : ({ ev4 with result := ev4.result ++ [(⟨none, none, location⟩ : Piece)] } : Evaluation).end_of_expression =
        (true, { ev4 with result := ev4.result ++ [(⟨none, none, location⟩ : Piece)] }) :=
      end_of_expression_of_empty _ (by simp [hpc4]) (by simp [hstk4])
    have hfin : Evaluation.evaluate_internal fuel
        { ev4 with result := ev4.result ++ [(⟨none, none, location⟩ : Piece)] } =
        some (.ok .Complete, { ev4 with result := ev4.result ++ [(⟨none, none, location⟩ : Piece)], state := .Complete }) := by
      cases fuel <;>
        · unfold Evaluation.evaluate_internal
          rw [hempty]
          show some (Evaluation.evaluate_final _) = _
          unfold Evaluation.evaluate_final
          rw [if_neg (by simp)]
    simp only [hres4, List.isEmpty_nil, if_true, List.nil_append] at hfin ⊢
    rw [hfin]
  · intro ev4 size_in_bits bit_offset pc5 hend4 hparse
    simp only [hend4, hparse]
  · intro ev4 operation pc5 hend4 hparse hnp
    rw [hend4]
    simp only [hparse]

/-- C2 amended witness: after `reg0` completes on `reg0 const1u 1`, the
next decoded operation is `const1u 1` (not a `Piece`), and the loop
fails with `InvalidExpressionTerminator (3 - 0 - 1) = 2`. -/
theorem complete_location_terminator_spec_witness :
    Evaluation.evaluate_internal 9 { c2ev with state := .Ready } =
      some (.error (.InvalidExpressionTerminator 2),
            { c2ev with state := .Ready, iteration := 1, pc := [] }) := by
  have h := (complete_location_terminator_spec 8 { c2ev with state := .Ready }
      { c2ev with state := .Ready }
      { c2ev with state := .Ready, iteration := 1, pc := [0x08, 0x01] }
      (.Register 0)
      rfl (by intro m hm; exact absurd hm (by simp [c2ev, Evaluation.new]))
      rfl).2.2.2
      { c2ev with state := .Ready, iteration := 1, pc := [0x08, 0x01] }
      (.Literal 1) [] rfl rfl
      (by intro size_in_bits bit_offset h; exact absurd h (by simp))
  rw [h]
  rfl

set_option linter.unreachableTactic false in
set_option maxHeartbeats 2000000 in
/-- The evaluator state after one operation is executed has the same
iteration counter and iteration cap as before: decoding and executing an
operation never touches them. -/
theorem evaluate_one_operation_config (ev ev' : Evaluation)
    (r : Except Error OperationEvaluationResult)
    (h : ev.evaluate_one_operation = (r, ev')) :
    ev'.max_iterations = ev.max_iterations ∧ ev'.iteration = ev.iteration := by
  unfold Evaluation.evaluate_one_operation at h
  split at h
  · injection h with h1 h2
    subst h2
    exact ⟨rfl, rfl⟩
  · split at h <;>
      simp only [andThen, bindVal, Evaluation.pop, Evaluation.push] at h <;>
      (repeat' split at h) <;>
      (injection h with h1 h2) <;>
      (subst h2) <;>
      (repeat'
        first
          | exact ⟨rfl, rfl⟩
          | (rename_i heq
             split at heq <;> (injection heq with k1 k2) <;>
               first
                 | (injection k1
                    done)
                 | subst k2)
          | (rename_i heqA heqB
             split at heqA <;> (injection heqA with k1 k2) <;>
               first
                 | (injection k1
                    done)
                 | subst k2)
          | (rename_i heqA heqB heqC
             split at heqA <;> (injection heqA with k1 k2) <;>
               first
                 | (injection k1
                    done)
                 | subst k2)
          | (rename_i heqA heqB heqC heqD
             split at heqA <;> (injection heqA with k1 k2) <;>
               first
                 | (injection k1
                    done)
                 | subst k2)
          | (rename_i heqA heqB heqC heqD heqE
             split at heqA <;> (injection heqA with k1 k2) <;>
               first
                 | (injection k1
                    done)
                 | subst k2)
          | (rename_i heqA heqB heqC heqD heqE heqF
             split at heqA <;> (injection heqA with k1 k2) <;>
               first
                 | (injection k1
                    done)
                 | subst k2)
          | (rename_i heqA heqB heqC heqD heqE heqF heqG
             split at heqA <;> (injection heqA with k1 k2) <;>
               first
                 | (injection k1
                    done)
                 | subst k2)
          | (rename_i hA hB hC hD hE hF hG hH
             split at hA <;> (injection hA with k1 k2) <;>
               first
                 | (injection k1
                    done)
                 | subst k2)
          | (rename_i hA hB hC hD hE hF hG hH hI
             split at hA <;> (injection hA with k1 k2) <;>
               first
                 | (injection k1
                    done)
                 | subst k2)
          | (rename_i hA hB hC hD hE hF hG hH hI hJ
             split at hA <;> (injection hA with k1 k2) <;>
               first
                 | (injection k1
                    done)
                 | subst k2)
          | (rename_i hA hB hC hD hE hF hG hH hI hJ hK
             split at hA <;> (injection hA with k1 k2) <;>
               first
                 | (injection k1
                    done)
                 | subst k2)
          | (rename_i hA hB hC hD hE hF hG hH hI hJ hK hL
             split at hA <;> (injection hA with k1 k2) <;>
               first
                 | (injection k1
                    done)
                 | subst k2))

/-- At a true end of expression the internal loop returns the epilogue
result for every fuel value: the end check consumes no fuel. -/
theorem evaluate_internal_at_end (fuel : Nat) (ev ev1 : Evaluation)
    (hend : ev.end_of_expression = (true, ev1)) :
    Evaluation.evaluate_internal fuel ev = some ev1.evaluate_final := by
  cases fuel <;> (unfold Evaluation.evaluate_internal; rw [hend])

set_option maxHeartbeats 1600000 in
/-- C5 counterexample: with `max_iterations = 1`, the expression
`reg0 piece 1` decodes two operations but completes successfully with
the iteration counter at 1: the `Piece` operation after the
`Complete`-producing `reg0` is decoded without incrementing the counter,
so the claimed once-per-decoded-operation count (and the failure of any
expression with more than `M` decoded operations) does not hold. -/
theorem piece_not_counted_cx :
    (Evaluation.new [0x50, 0x93, 0x01] 8 .Dwarf32).set_max_iterations 1 = c5ev ∧
    Evaluation.evaluate 9 c5ev = some (.ok .Complete c5ev1) ∧
    c5ev1.iteration = 1 ∧
    c5ev1.max_iterations = some 1 := by
  have hint : Evaluation.evaluate_internal 9 ({ c5ev with state := .Ready }) =
      some (.ok .Complete, c5ev1) := rfl
  refine ⟨rfl, ?_, rfl, rfl⟩
  unfold Evaluation.evaluate
  simp only [show c5ev.state = .Start none from rfl]
  unfold evaluateRun
  rw [hint]

/-- C5 amended: the iteration counter is incremented exactly once per
main-loop pass (not once per decoded operation), and as soon as it
exceeds `max_iterations` the evaluation fails with `TooManyIterations`;
consequently, with a cap of `m` the loop always resolves within
`m + 1 - iteration` passes (it cannot run forever). -/
theorem iteration_bound_spec :
    (∀ (fuel : Nat) (ev ev1 : Evaluation) (m : Nat),
       ev.end_of_expression = (false, ev1) →
       ev1.max_iterations = some m → m < ev1.iteration + 1 →
       Evaluation.evaluate_internal (fuel + 1) ev =
         some (.error .TooManyIterations, { ev1 with iteration := ev1.iteration + 1 })) ∧
    (∀ (fuel : Nat) (ev : Evaluation) (m : Nat),
       ev.max_iterations = some m → 1 ≤ fuel → m + 1 ≤ ev.iteration + fuel →
       Evaluation.evaluate_internal fuel ev ≠ none) := by
  constructor
  · intro fuel ev ev1 m hend hm hlt
    have hover : (match ({ ev1 with iteration := ev1.iteration + 1 } : Evaluation).max_iterations with
        | some max_iterations =>
          decide (max_iterations < ({ ev1 with iteration := ev1.iteration + 1 } : Evaluation).iteration)
        | none => false) = true := by
      simp only [hm]
      simp
      omega
    conv_lhs => unfold Evaluation.evaluate_internal
    rw [hend]
    simp only [hover, if_true]
  · intro fuel
    induction fuel with
    | zero =>
      intro ev m hm h1 h2
      omega
    | succ f ih =>
      intro ev m hm h1 hsum
      rcases hend : ev.end_of_expression with ⟨b, ev1⟩
      have hcfg := end_of_expression_config ev
      rw [hend] at hcfg
      cases b
      case true =>
        rw [evaluate_internal_at_end (f + 1) ev ev1 hend]
        simp
      case false =>
        have hm1 : ev1.max_iterations = some m := by rw [hcfg.1, hm]
        have hit1 : ev1.iteration = ev.iteration := hcfg.2.1
        intro hnone
        unfold Evaluation.evaluate_internal at hnone
        rw [hend] at hnone
        simp only [] at hnone
        split at hnone
        · exact absurd hnone (by simp)
        · rename_i hoverfalse
          have hup : ev1.iteration + 1 ≤ m := by
            simp [hm1] at hoverfalse
            omega
          split at hnone
          case h_1 e ev3 heq => exact absurd hnone (by simp)
          case h_2 ev3 heq =>
            have hc3 := evaluate_one_operation_config _ _ _ heq
            have hmx3 : ev3.max_iterations = some m := by
              rw [hc3.1]
              simpa using hm1
            have hit3 : ev3.iteration = ev1.iteration + 1 := by simpa using hc3.2
            exact ih ev3 m hmx3 (by omega) (by omega) hnone
          case h_3 ev3 heq =>
            have hc3 := evaluate_one_operation_config _ _ _ heq
            have hmx3 : ev3.max_iterations = some m := by
              rw [hc3.1]
              simpa using hm1
            have hit3 : ev3.iteration = ev1.iteration + 1 := by simpa using hc3.2
            rcases hend3 : ev3.end_of_expression with ⟨b3, ev4⟩
            have hcfg4 := end_of_expression_config ev3
            rw [hend3] at hcfg4
            simp only at hcfg4
            rw [hend3] at hnone
            simp only at hnone
            split at hnone
            · exact absurd hnone (by simp)
            · cases b3
              case false =>
                exact ih ev4 m (by rw [hcfg4.1, hmx3]) (by omega)
                  (by rw [hcfg4.2.1, hit3]; omega) hnone
              case true =>
                obtain ⟨hpc4, hstk4⟩ := end_of_expression_true_empty ev3 ev4 hend3
                rw [evaluate_internal_at_end f ev4 ev4
                  (end_of_expression_of_empty ev4 hpc4 hstk4)] at hnone
                exact absurd hnone (by simp)
          case h_4 location ev3 heq =>
            have hc3 := evaluate_one_operation_config _ _ _ heq
            have hmx3 : ev3.max_iterations = some m := by
              rw [hc3.1]
              simpa using hm1
            have hit3 : ev3.iteration = ev1.iteration + 1 := by simpa using hc3.2
            rcases hend3 : ev3.end_of_expression with ⟨b3, ev4⟩
            have hcfg4 := end_of_expression_config ev3
            rw [hend3] at hcfg4
            simp only at hcfg4
            rw [hend3] at hnone
            cases b3
            case true =>
              obtain ⟨hpc4, hstk4⟩ := end_of_expression_true_empty ev3 ev4 hend3
              simp only at hnone
              split at hnone
              · rw [evaluate_internal_at_end f _ _
                  (end_of_expression_of_empty _ (by simpa using hpc4) (by simpa using hstk4))] at hnone
                exact absurd hnone (by simp)
              · exact absurd hnone (by simp)
            case false =>
              simp only at hnone
              split at hnone
              case h_1 e hparse => exact absurd hnone (by simp)
              case h_2 sz off pc5 hparse =>
                refine ih _ m ?_ (by omega) ?_ hnone
                · simpa [hcfg4.1] using hmx3
                · simp only [hcfg4.2.1, hit3]
                  omega
              case h_3 op pc5 hparse hnp => exact absurd hnone (by simp)
          case h_5 w r2 ev3 heq => exact absurd hnone (by simp)

/-- C5 witness: with a cap of 0, a `nop` expression fails with
`TooManyIterations` on the first pass, and the loop resolves within one
unit of fuel. -/
theorem iteration_bound_spec_witness :
    Evaluation.evaluate_internal 1
        { Evaluation.new [0x96] 8 .Dwarf32 with
            state := .Ready, max_iterations := some 0 } =
      some (.error .TooManyIterations,
        { Evaluation.new [0x96] 8 .Dwarf32 with
            state := .Ready, max_iterations := some 0, iteration := 1 }) ∧
    Evaluation.evaluate_internal 1
        { Evaluation.new [0x96] 8 .Dwarf32 with
            state := .Ready, max_iterations := some 0 } ≠ none := by
  constructor
  · have h := iteration_bound_spec.1 0
      { Evaluation.new [0x96] 8 .Dwarf32 with
          state := .Ready, max_iterations := some 0 }
      { Evaluation.new [0x96] 8 .Dwarf32 with
          state := .Ready, max_iterations := some 0 }
      0
      (end_of_expression_of_nonempty _ (by decide))
      rfl (by omega)
    exact h
  · exact iteration_bound_spec.2 1
      { Evaluation.new [0x96] 8 .Dwarf32 with
          state := .Ready, max_iterations := some 0 }
      0 rfl (by omega) (by simp [Evaluation.new])

/-- C8: resuming at a location with a non-empty byte slice pushes the
current (pc, bytecode) pair onto the expression call stack and installs
the slice as both pc and bytecode before continuing; an empty slice
changes neither pc, bytecode nor the call stack; and end-of-expression
detection pops saved pairs while pc is empty, reporting a true end
exactly when pc and the call stack are both empty. -/
theorem at_location_spec :
    (∀ (fuel : Nat) (bytes : List Nat) (ev : Evaluation),
       ev.state = .Waiting .AtLocation → bytes ≠ [] →
       Evaluation.resume_with_at_location fuel bytes ev =
         liftInternal (Evaluation.evaluate_internal fuel
           { ev with pc := bytes, bytecode := bytes,
                     expression_stack := (ev.pc, ev.bytecode) :: ev.expression_stack })) ∧
    (∀ (fuel : Nat) (ev : Evaluation),
       ev.state = .Waiting .AtLocation →
       Evaluation.resume_with_at_location fuel [] ev =
         liftInternal (Evaluation.evaluate_internal fuel ev)) ∧
    (∀ (ev : Evaluation) (p b : List Nat) (rest : List (List Nat × List Nat)),
       ev.pc = [] → ev.expression_stack = (p, b) :: rest →
       ev.end_of_expression =
         Evaluation.end_of_expression
           { ev with pc := p, bytecode := b, expression_stack := rest }) ∧
    (∀ ev : Evaluation, ev.pc = [] → ev.expression_stack = [] →
       ev.end_of_expression = (true, ev)) ∧
    (∀ ev : Evaluation, ev.pc ≠ [] → ev.end_of_expression = (false, ev)) := by
  refine ⟨?_, ?_, ?_, fun ev hpc hstack => end_of_expression_of_empty ev hpc hstack,
         fun ev hpc => end_of_expression_of_nonempty ev hpc⟩
  · intro fuel bytes ev hstate hbytes
    have hne : bytes.isEmpty = false := by simpa [List.isEmpty_iff] using hbytes
    unfold Evaluation.resume_with_at_location
    simp only [hstate, hne, Bool.false_eq_true, if_false]
  · intro fuel ev hstate
    unfold Evaluation.resume_with_at_location
    simp only [hstate, List.isEmpty_nil, if_true]
  · intro ev p b rest hpc hstack
    have hstep : end_of_expressionAux ((p, b) :: rest) [] ev.bytecode =
        end_of_expressionAux rest p b := by
      conv_lhs => unfold end_of_expressionAux
      simp
    unfold Evaluation.end_of_expression
    rw [hpc, hstack, hstep]

/-- C8 witness: resuming with the one-byte slice `[0x96]` saves the
current empty cursors and installs the slice; resuming with the empty
slice keeps the evaluator unchanged; the end-of-expression check on an
empty cursor restores a saved pair. -/
theorem at_location_spec_witness :
    Evaluation.resume_with_at_location 3 [0x96]
        { Evaluation.new [] 8 .Dwarf32 with state := .Waiting .AtLocation } =
      liftInternal (Evaluation.evaluate_internal 3
        { Evaluation.new [] 8 .Dwarf32 with
            state := .Waiting .AtLocation, pc := [0x96], bytecode := [0x96],
            expression_stack := [([], [])] }) ∧
    Evaluation.resume_with_at_location 3 []
        { Evaluation.new [] 8 .Dwarf32 with state := .Waiting .AtLocation } =
      liftInternal (Evaluation.evaluate_internal 3
        { Evaluation.new [] 8 .Dwarf32 with state := .Waiting .AtLocation }) ∧
    ({ Evaluation.new [] 8 .Dwarf32 with
        state := .Ready, expression_stack := [([0x96], [0x96])] } :
          Evaluation).end_of_expression =
      Evaluation.end_of_expression
        { Evaluation.new [] 8 .Dwarf32 with
            state := .Ready, pc := [0x96], bytecode := [0x96],
            expression_stack := [] } := by
  refine ⟨?_, ?_, ?_⟩
  · have h := at_location_spec.1 3 [0x96]
      { Evaluation.new [] 8 .Dwarf32 with state := .Waiting .AtLocation }
      rfl (by decide)
    exact h
  · exact at_location_spec.2.1 3
      { Evaluation.new [] 8 .Dwarf32 with state := .Waiting .AtLocation } rfl
  · exact at_location_spec.2.2.1
      { Evaluation.new [] 8 .Dwarf32 with
          state := .Ready, expression_stack := [([0x96], [0x96])] }
      [0x96] [0x96] [] rfl rfl

end Gimli
